import Mathlib

/-!
# pvDataCPP: the structure-array container and the JSON deserialization engine

A shallow embedding of `src/pvDataApp/factory/BasePVStructureArray.h` (first
part) and of `src/src/json/parseinto.cpp` (second part, introduced further
down).

* A C++ `int` has 32 bits.  Its values are integers (`Int`); the additions
  and subtractions of `get` and `put` whose result can leave the range of
  `int` are reduced to 32 bits in two's complement (`wrap`), which is what
  the code does on the usual compilers when a signed operation overflows.
* A heap array (`PVStructurePtr*`) is a `List` of cells, its length being the
  size of the allocation.  An access outside the allocation is undefined
  behaviour in C++; the model makes it explicit: `readAt` / `writeAt` return
  `none`, and the operations return `none` / `PutResult.undefined`.
* The source of `put` is a pointer: the pointer `value` itself, a pointer into
  the array the container owns (read from the live array, dangling once
  `setCapacity` has replaced that array), or a pointer to another array.
* The container is a record that is passed and returned explicitly.
* The members inherited from `PVArray` / `PVField` (`getLength`,
  `getCapacity`, `setLength`, `setCapacityLength`, `isCapacityMutable`,
  `isImmutable`, `message`, `postPut`) are declared in `pvData.h`, which is
  not among the sources; they are modelled from the specification and marked
  as such.
-/

namespace epics.pvData

/-- Address of an immutable structure descriptor (`StructureConstPtr`).
Descriptors are compared by reference, hence by address. -/
abbrev StructureConstPtr := Nat

/-- A structure value (`PVStructure`): the identity of the object and the
descriptor returned by `getStructure()`. -/
structure PVStructure where
  addr : Nat
  getStructure : StructureConstPtr
deriving DecidableEq, Repr

/-- A `PVStructurePtr`: the null pointer (`none`, an absent element) or a
pointer to a structure value. -/
abbrev PVStructurePtr := Option PVStructure

/-- Severity passed to `PVField::message`; the container only uses
`errorMessage`. -/
inductive MessageType where
  | infoMessage
  | warningMessage
  | errorMessage
  | fatalErrorMessage
deriving DecidableEq, Repr

/-- The least value of a C++ `int`. -/
def INT_MIN : Int := -2147483648

/-- The greatest value of a C++ `int`. -/
def INT_MAX : Int := 2147483647

/-- The result of an `int` operation whose mathematical result is `x`: `x`
reduced to 32 bits in two's complement. -/
def wrap (x : Int) : Int := (x + 2147483648) % 4294967296 - 2147483648

/-- The `from` argument of `put`, a pointer to cells: the pointer `value`
itself (the array the container currently owns), the pointer `value + shift`
into that same array, or a pointer to the first cell of some other array. -/
inductive PVStructurePtrArray where
  | own
  | inside (shift : Int)
  | other (cells : List PVStructurePtr)
deriving DecidableEq, Repr

/-- The test `from==value` of line 109. -/
def sameArray : PVStructurePtrArray → Bool
  | PVStructurePtrArray.own => true
  | PVStructurePtrArray.inside shift => decide (shift = 0)
  | PVStructurePtrArray.other _ => false

/-- Whether `from` points into the array the container owns, so that it
dangles once `setCapacity` has released that array (`delete[] value`,
line 77). -/
def aliases : PVStructurePtrArray → Bool
  | PVStructurePtrArray.own => true
  | PVStructurePtrArray.inside _ => true
  | PVStructurePtrArray.other _ => false

/-- The state of a `BasePVStructureArray`.

* `structureArray` is the declared element descriptor, the value of
  `structureArray->getStructure()`;
* `value` is the backing array the member `value` points to;
* `capacity`, `length`, `capacityMutable` live in the `PVArray` base class and
  `immutable` in `PVField`;
* `messages` records the calls of `PVField::message` and `postPutCount` the
  number of `postPut()` notifications. -/
structure BasePVStructureArray where
  structureArray : StructureConstPtr
  immutable : Bool
  capacityMutable : Bool
  capacity : Int
  length : Int
  value : List PVStructurePtr
  messages : List (String × MessageType)
  postPutCount : Nat
deriving DecidableEq, Repr

/-- Reading cell `i` of a heap array, `a[i]`; `none` outside the allocation. -/
def readAt (a : List PVStructurePtr) (i : Int) : Option PVStructurePtr :=
  if 0 ≤ i then a[i.toNat]? else none

/-- Writing cell `i` of a heap array, `a[i] = v`; `none` outside the
allocation. -/
def writeAt (a : List PVStructurePtr) (i : Int) (v : PVStructurePtr) :
    Option (List PVStructurePtr) :=
  if 0 ≤ i ∧ i < (a.length : Int) then some (a.set i.toNat v) else none

/-- Modelled from the spec: `PVArray::getLength` is missing from the sources;
it reads the length `L`. -/
def getLength (self : BasePVStructureArray) : Int := self.length

/-- Modelled from the spec: `PVArray::getCapacity` is missing from the sources;
it reads the capacity `C`. -/
def getCapacity (self : BasePVStructureArray) : Int := self.capacity

/-- Modelled from the spec: `PVArray::isCapacityMutable` is missing from the
sources; the `capacityMutable` flag, set at construction, gates whether `C`
may change. -/
def isCapacityMutable (self : BasePVStructureArray) : Bool := self.capacityMutable

/-- Modelled from the spec: `PVField::isImmutable` is missing from the sources;
it reads the immutable flag of the value node. -/
def isImmutable (self : BasePVStructureArray) : Bool := self.immutable

/-- Modelled from the spec: `PVField::message` is missing from the sources; it
reports through the non-fatal message channel of the field and does not
raise.  The channel is a log of the reported messages. -/
def message (self : BasePVStructureArray) (msg : String) (t : MessageType) :
    BasePVStructureArray :=
  { self with messages := self.messages ++ [(msg, t)] }

/-- Modelled from the spec: `PVField::postPut` is missing from the sources; it
raises one value-changed notification. -/
def postPut (self : BasePVStructureArray) : BasePVStructureArray :=
  { self with postPutCount := self.postPutCount + 1 }

/-- Modelled from the spec: `PVArray::setLength` is missing from the sources;
it sets `L` to the given value. -/
def setLength (self : BasePVStructureArray) (length : Int) : BasePVStructureArray :=
  { self with length := length }

/-- Modelled from the spec: `PVArray::setCapacityLength` is missing from the
sources; it sets `C` and `L` to the given values. -/
def setCapacityLength (self : BasePVStructureArray) (capacity length : Int) :
    BasePVStructureArray :=
  { self with capacity := capacity, length := length }

/-- The constructor (lines 49-55): `value(new PVStructurePtr[0])`.
Modelled from the spec: the constructor of the base class `PVArray` is missing
from the sources; a fresh array has capacity 0 and length 0, and the flags are
set at construction. -/
def BasePVStructureArray.new (structureArray : StructureConstPtr)
    (immutable capacityMutable : Bool) : BasePVStructureArray :=
  { structureArray := structureArray
    immutable := immutable
    capacityMutable := capacityMutable
    capacity := 0
    length := 0
    value := []
    messages := []
    postPutCount := 0 }

/-- Line 74 of `setCapacity`: `for(int i=0; i<limit; i++) newValue[i] = value[i];`
The first argument counts the iterations still to run, `i` is the loop
variable. -/
def copyLoop (value : List PVStructurePtr) :
    Nat → Int → List PVStructurePtr → Option (List PVStructurePtr)
  | 0, _, newValue => some newValue
  | n + 1, i, newValue =>
    match readAt value i with
    | none => none
    | some v =>
      match writeAt newValue i v with
      | none => none
      | some newValue1 => copyLoop value n (i + 1) newValue1

/-- Line 75 of `setCapacity`: `for(int i=limit; i<capacity; i++) newValue[i] = 0;`
The first argument counts the iterations still to run, `i` is the loop
variable. -/
def fillLoop : Nat → Int → List PVStructurePtr → Option (List PVStructurePtr)
  | 0, _, newValue => some newValue
  | n + 1, i, newValue =>
    match writeAt newValue i none with
    | none => none
    | some newValue1 => fillLoop n (i + 1) newValue1

/-- The member `setCapacity` (lines 63-80).  `none` is undefined behaviour: an
allocation of negative size or an access outside an allocation.  The cells of
`new PVStructurePtr[capacity]` are uninitialised; both loops together assign
every one of them, so their initial content (here: null) is never observed.
`delete[] value` frees the old array, which the returned record no longer
mentions. -/
def setCapacity (self : BasePVStructureArray) (capacity : Int) :
    Option BasePVStructureArray :=
  if getCapacity self = capacity then some self
  else if !isCapacityMutable self then
    some (message self "not capacityMutable" MessageType.errorMessage)
  else
    let length := getLength self
    if capacity < 0 then none
    else
      let newValue : List PVStructurePtr := List.replicate capacity.toNat none
      let limit := if length > capacity then capacity else length
      match copyLoop self.value limit.toNat 0 newValue with
      | none => none
      | some newValue1 =>
        match fillLoop (capacity - limit).toNat limit newValue1 with
        | none => none
        | some newValue2 =>
          let length1 := if length > capacity then capacity else length
          some (setCapacityLength { self with value := newValue2 } capacity length1)

/-- How the element loop of `put` ends. -/
inductive LoopResult where
  | done (value : List PVStructurePtr)
  | threw (value : List PVStructurePtr)
  | undefined
deriving DecidableEq, Repr

/-- The read `from[k]` of line 126, with `value` the backing array as it is at
that moment: a source inside the container's own array reads the cells the
loop has written so far. -/
def readFrom (src : PVStructurePtrArray) (value : List PVStructurePtr) (k : Int) :
    Option PVStructurePtr :=
  match src with
  | PVStructurePtrArray.own => readAt value k
  | PVStructurePtrArray.inside shift => readAt value (shift + k)
  | PVStructurePtrArray.other cells => readAt cells k

/-- Lines 125-136 of `put`: the element loop
`for(int i=0; i<len; i++) { ... }`.  The first numeric argument counts the
iterations still to run, `i` is the loop variable (below `len`, so `i++` does
not overflow).  `threw` is the `throw std::invalid_argument` of line 132, with
the backing array as it is at that moment. -/
def putLoop (structure_ : StructureConstPtr) (src : PVStructurePtrArray)
    (fromOffset offset : Int) : Nat → Int → List PVStructurePtr → LoopResult
  | 0, _, value => LoopResult.done value
  | n + 1, i, value =>
    match readFrom src value (wrap (i + fromOffset)) with
    | none => LoopResult.undefined
    | some none =>
      match writeAt value (wrap (i + offset)) none with
      | none => LoopResult.undefined
      | some value1 => putLoop structure_ src fromOffset offset n (i + 1) value1
    | some (some frompv) =>
      if frompv.getStructure ≠ structure_ then LoopResult.threw value
      else
        match writeAt value (wrap (i + offset)) (some frompv) with
        | none => LoopResult.undefined
        | some value1 => putLoop structure_ src fromOffset offset n (i + 1) value1

/-- The text of the exception of line 132. -/
def notCompatible : String := "Element is not a compatible structure"

/-- How a call of `put` ends: a normal return with the returned `int`, a thrown
`std::invalid_argument` with its text, or undefined behaviour.  The first two
carry the container as the call leaves it. -/
inductive PutResult where
  | returned (self : BasePVStructureArray) (n : Int)
  | threw (self : BasePVStructureArray) (what : String)
  | undefined
deriving DecidableEq, Repr

/-- The container a call of `put` leaves behind, when the call is defined. -/
def PutResult.after : PutResult → Option BasePVStructureArray
  | PutResult.returned self _ => some self
  | PutResult.threw self _ => some self
  | PutResult.undefined => none

/-- Lines 124-138 of `put`: the element loop, then `postPut()` and
`return len`. -/
def putElements (self : BasePVStructureArray) (offset len : Int)
    (src : PVStructurePtrArray) (fromOffset : Int) : PutResult :=
  match putLoop self.structureArray src fromOffset offset len.toNat 0 self.value with
  | LoopResult.undefined => PutResult.undefined
  | LoopResult.threw value1 => PutResult.threw { self with value := value1 } notCompatible
  | LoopResult.done value1 => PutResult.returned (postPut { self with value := value1 }) len

/-- The member `put` (lines 102-139).  The locals `length` and `capacity` are
read once, before `setCapacity` is called (lines 111-112), and line 117 uses
that local `capacity`.  When `setCapacity` has replaced the backing array, a
source that points into the old array dangles, and the loop that reads it is
undefined. -/
def put (self : BasePVStructureArray) (offset len : Int)
    (src : PVStructurePtrArray) (fromOffset : Int) : PutResult :=
  if isImmutable self then
    PutResult.returned (message self "field is immutable" MessageType.errorMessage) 0
  else if sameArray src then PutResult.returned self len
  else if len < 1 then PutResult.returned self 0
  else
    let length := getLength self
    let capacity := getCapacity self
    if wrap (offset + len) > length then
      let newlength := wrap (offset + len)
      if newlength > capacity then
        match setCapacity self newlength with
        | none => PutResult.undefined
        | some self1 =>
          let newlength1 := capacity
          let len1 := wrap (newlength1 - offset)
          if len1 ≤ 0 then PutResult.returned self1 0
          else if aliases src && isCapacityMutable self then PutResult.undefined
          else putElements (setLength self1 newlength1) offset len1 src fromOffset
      else putElements (setLength self newlength) offset len src fromOffset
    else putElements self offset len src fromOffset

/-- The member `shareData` (lines 141-147): `this->value = value;
setCapacity(capacity); setLength(length);`. -/
def shareData (self : BasePVStructureArray) (value : List PVStructurePtr)
    (capacity length : Int) : Option BasePVStructureArray :=
  match setCapacity { self with value := value } capacity with
  | none => none
  | some self1 => some (setLength self1 length)

/-- Slot `i` of the container: cell `i` of its backing array. -/
def slot (self : BasePVStructureArray) (i : Int) : Option PVStructurePtr :=
  readAt self.value i

/-- The class invariant of the container: `0 ≤ L ≤ C`, and the backing array
has exactly `C` cells. -/
def WellFormed (self : BasePVStructureArray) : Prop :=
  0 ≤ self.length ∧ self.length ≤ self.capacity ∧ (self.value.length : Int) = self.capacity

instance (self : BasePVStructureArray) : Decidable (WellFormed self) := by
  unfold WellFormed; infer_instance

/-- The invariant `0 ≤ L ≤ C` of the data model. -/
def LengthInv (self : BasePVStructureArray) : Prop :=
  0 ≤ self.length ∧ self.length ≤ self.capacity

instance (self : BasePVStructureArray) : Decidable (LengthInv self) := by
  unfold LengthInv; infer_instance

/-- A fresh container with declared element descriptor 7, not immutable, with
mutable capacity. -/
def fresh : BasePVStructureArray := BasePVStructureArray.new 7 false true

/-- A structure value of the declared descriptor 7. -/
def pvA : PVStructure := { addr := 1, getStructure := 7 }

/-- Second structure value of descriptor 7. -/
def pvB : PVStructure := { addr := 2, getStructure := 7 }

/-- Third structure value of descriptor 7. -/
def pvC : PVStructure := { addr := 3, getStructure := 7 }

/-- A structure value whose descriptor is 8, not the declared 7. -/
def pvX : PVStructure := { addr := 9, getStructure := 8 }

/-- A container with capacity 2 and length 0 whose two slots hold `pvA` and
`pvB`: what `setCapacity(2)` followed by `shareData([pvA, pvB], 2, 0)` makes of
a fresh container. -/
def held : BasePVStructureArray :=
  { fresh with capacity := 2, value := [some pvA, some pvB] }

/-- A well-formed container with capacity 2 and length 2 holding `pvA`, `pvB`;
the flags are parameters. -/
def sample (immutable capacityMutable : Bool) : BasePVStructureArray :=
  { structureArray := 7
    immutable := immutable
    capacityMutable := capacityMutable
    capacity := 2
    length := 2
    value := [some pvA, some pvB]
    messages := []
    postPutCount := 0 }

/-- An element that may be stored under the declared element descriptor
`st`: the null pointer, or a structure whose descriptor is `st` (compared by
reference). -/
def Compatible (st : StructureConstPtr) (e : PVStructurePtr) : Prop :=
  match e with
  | none => True
  | some pv => pv.getStructure = st

instance (st : StructureConstPtr) (e : PVStructurePtr) : Decidable (Compatible st e) := by
  unfold Compatible; split <;> infer_instance

/-- Type homogeneity of a container: every non-absent cell of the backing array
holds a structure of the declared element descriptor. -/
def Homogeneous (self : BasePVStructureArray) : Prop :=
  ∀ e ∈ self.value, Compatible self.structureArray e

instance (self : BasePVStructureArray) : Decidable (Homogeneous self) := by
  unfold Homogeneous; infer_instance

/-- The out-parameter of `get` (`StructureArrayData`): a pointer to the backing
array, here the array itself, and an offset. -/
structure StructureArrayData where
  data : List PVStructurePtr
  offset : Int
deriving DecidableEq, Repr

/-- What a call of `get` leaves: the container, the filled out-parameter and
the returned `int`. -/
structure GetResult where
  self : BasePVStructureArray
  data : StructureArrayData
  n : Int
deriving DecidableEq, Repr

/-- The member `get` (lines 88-100). -/
def get (self : BasePVStructureArray) (offset len : Int) (_data : StructureArrayData) :
    GetResult :=
  let n := len
  let length := getLength self
  let n1 := if wrap (offset + len) > length then
              (if wrap (length - offset) < 0 then 0 else wrap (length - offset))
            else n
  { self := self, data := { data := self.value, offset := offset }, n := n1 }

/-! ## The deserialization engine (`src/src/json/parseinto.cpp`)

The callbacks work on value nodes of the pvData library, which `parseinto.cpp`
only uses.  Value nodes live in a heap (a list of nodes, a `PVFieldPtr` being
an index into it), so that cursor frames, array elements and union values can
share them by reference.  The library members the callbacks call are modelled
from the specification and marked as such; what the specification leaves open
(which literals a scalar accepts, the text of a failed lookup) is a parameter,
`Library`.  Value nodes of the engine are taken to be writable.  Assertions
are taken as compiled in. -/

/-- Modelled from the spec: the scalar types of the type-descriptor system
(`ScalarType` of pvData), which is missing from the sources. -/
inductive ScalarType where
  | pvBoolean | pvByte | pvShort | pvInt | pvLong
  | pvUByte | pvUShort | pvUInt | pvULong
  | pvFloat | pvDouble | pvString
deriving DecidableEq, Repr

/-- A scalar literal as the callbacks receive it: `bool`, `long`, `double`
(its bit pattern; the engine never computes with it) or `std::string`.  A
stored scalar value is represented in the same way. -/
inductive AnyScalar where
  | boolean (v : Bool)
  | integer (v : Int)
  | double (bits : Nat)
  | string (v : String)
deriving DecidableEq, Repr

/-- The scalar type that goes with a literal: the element type of the template
arguments `PVScalarT` / `PVArrayT` of `valueAssign` (`PVBoolean`, `PVLong`,
`PVDouble`, `PVString` and their arrays, lines 136-162). -/
def AnyScalar.type : AnyScalar → ScalarType
  | AnyScalar.boolean _ => ScalarType.pvBoolean
  | AnyScalar.integer _ => ScalarType.pvLong
  | AnyScalar.double _ => ScalarType.pvDouble
  | AnyScalar.string _ => ScalarType.pvString

mutual
/-- Modelled from the spec: a field descriptor, which is missing from the
sources: its kind and shape.  A structure array carries the fields of its
element structure, a union the flag "variant" and its alternatives. -/
inductive Field where
  | scalar (t : ScalarType)
  | scalarArray (t : ScalarType)
  | structure (fields : Fields)
  | structureArray (elem : Fields)
  | union (variant : Bool) (fields : Fields)
deriving DecidableEq, Repr
/-- Modelled from the spec: the ordered named fields of a structure or the
ordered named alternatives of a union. -/
inductive Fields where
  | nil
  | cons (name : String) (type : Field) (rest : Fields)
deriving DecidableEq, Repr
end

/-- The fields in declared order (`getFieldNames()` zipped with
`getFields()`). -/
def Fields.toList : Fields → List (String × Field)
  | Fields.nil => []
  | Fields.cons name type rest => (name, type) :: rest.toList

/-- Modelled from the spec: the kinds of field descriptors (`pvd::Type`, which
is missing from the sources), as far as the engine distinguishes them. -/
inductive Type_ where
  | scalar : Type_
  | scalarArray : Type_
  | structure : Type_
  | structureArray : Type_
  | union_ : Type_
deriving DecidableEq, Repr

/-- A `PVFieldPtr`: the address of a value node in the heap. -/
abbrev Addr := Nat

/-- Modelled from the spec: the content of a value node, by kind.  A scalar
holds its type and its value (`none`: never assigned), a scalar array its
element type and its current contents, a structure its named children, a
structure array the fields of its element structure and its current contents,
a union its descriptor, the selected index and the active value. -/
inductive PVData where
  | scalar (t : ScalarType) (value : Option AnyScalar)
  | scalarArray (t : ScalarType) (value : List AnyScalar)
  | structure (fields : List (String × Addr))
  | structureArray (elem : Fields) (value : List Addr)
  | union (variant : Bool) (fields : Fields) (selector : Option Nat) (value : Option Addr)
deriving DecidableEq, Repr

/-- Modelled from the spec: a value node (`PVField`): its offset in its
top-level tree (`getFieldOffset()`), its path name (`getFullName()`) and its
content. -/
structure PVField where
  fieldOffset : Nat
  fullName : String
  data : PVData
deriving DecidableEq, Repr

/-- The kind of a value node, `getField()->getType()`. -/
def PVField.getType (fld : PVField) : Type_ :=
  match fld.data with
  | PVData.scalar _ _ => Type_.scalar
  | PVData.scalarArray _ _ => Type_.scalarArray
  | PVData.structure _ => Type_.structure
  | PVData.structureArray _ _ => Type_.structureArray
  | PVData.union _ _ _ _ => Type_.union_

/-- The path name of a child. -/
def childName (parentName name : String) : String :=
  if parentName = "" then name else parentName ++ "." ++ name

mutual
/-- Modelled from the spec: `createPVField` of the pvData factory, which is
missing from the sources: a fresh value of the given descriptor with fresh
children, offsets in pre-order.  Returns the address of the new node, the
grown heap and the next free offset. -/
def createPVField (f : Field) (fullName : String) (offset : Nat) (heap : List PVField) :
    Addr × List PVField × Nat :=
  match f with
  | Field.scalar t =>
    (heap.length, heap ++ [⟨offset, fullName, PVData.scalar t none⟩], offset + 1)
  | Field.scalarArray t =>
    (heap.length, heap ++ [⟨offset, fullName, PVData.scalarArray t []⟩], offset + 1)
  | Field.structure fs =>
    match createPVFields fs fullName (offset + 1) heap with
    | (children, heap1, next) =>
      (heap1.length, heap1 ++ [⟨offset, fullName, PVData.structure children⟩], next)
  | Field.structureArray elem =>
    (heap.length, heap ++ [⟨offset, fullName, PVData.structureArray elem []⟩], offset + 1)
  | Field.union variant fs =>
    (heap.length, heap ++ [⟨offset, fullName, PVData.union variant fs none none⟩], offset + 1)
/-- Modelled from the spec: the children of a fresh structure, in declared
order. -/
def createPVFields (fs : Fields) (parentName : String) (offset : Nat) (heap : List PVField) :
    List (String × Addr) × List PVField × Nat :=
  match fs with
  | Fields.nil => ([], heap, offset)
  | Fields.cons name type rest =>
    match createPVField type (childName parentName name) offset heap with
    | (a, heap1, next) =>
      match createPVFields rest parentName next heap1 with
      | (children, heap2, next2) => ((name, a) :: children, heap2, next2)
end

/-- What the specification leaves open about the pvData library:
`putFrom t val` is the coercing assignment of a literal to a scalar of type
`t` (`PVScalar::putFrom`): the stored value when the scalar accepts the
literal, the text of the `std::runtime_error` when it rejects it;
`getSubFieldError name` is the text of the `std::runtime_error` that
`getSubFieldT(name)` throws when the structure has no such field. -/
structure Library where
  putFrom : ScalarType → AnyScalar → Except String AnyScalar
  getSubFieldError : String → String

/-- A cursor frame (lines 26-32): the target value node and the change set
pointer, which is null (`false`) or the change set of the caller (`true`). -/
structure frame where
  fld : Addr
  assigned : Bool
deriving DecidableEq, Repr

/-- The engine state (`struct context`, lines 22-41) together with the memory
it works on: the error message, the cursor stack (its head is `stack.back()`),
the heap of value nodes and the change set of the caller (`BitSet`, the set of
the offsets marked). -/
structure context where
  msg : String
  stack : List frame
  heap : List PVField
  bitSet : Finset Nat
deriving DecidableEq

/-- The constructor of `context` (lines 37-40): one frame for the root. -/
def context.new (heap : List PVField) (root : Addr) (assigned : Bool)
    (bitSet : Finset Nat) : context :=
  { msg := "", stack := [⟨root, assigned⟩], heap := heap, bitSet := bitSet }

/-- How a block of code ends: normally with a value, with a thrown
`std::exception` and its text, with a failed `assert`, or in undefined
behaviour (a cast to a wrong type, a dangling pointer). -/
inductive Body (α : Type) where
  | returned (self : context) (a : α)
  | threw (self : context) (what : String)
  | assertFailed
  | undefined

/-- How a callback ends: it returns 1 (continue) or 0 (abort), or an assertion
fails, or the behaviour is undefined. -/
inductive Callback where
  | returned (self : context) (r : Int)
  | assertFailed
  | undefined
deriving DecidableEq

/-- The macro `CATCH()` (line 45) around a `try` block:
`catch(std::exception& e) { if(self->msg.empty()) self->msg = e.what(); return 0; }`. -/
def CATCH (b : Body Int) : Callback :=
  match b with
  | Body.returned self r => Callback.returned self r
  | Body.threw self what =>
    Callback.returned (if self.msg = "" then { self with msg := what } else self) 0
  | Body.assertFailed => Callback.assertFailed
  | Body.undefined => Callback.undefined

/-- The macro `TRY` (line 43): `assert(!self->stack.empty()); try`, closed by
`CATCH()`. -/
def TRY (self : context) (block : context → Body Int) : Callback :=
  if self.stack = [] then Callback.assertFailed else CATCH (block self)

/-- The callback `jtree_null` (lines 47-53). -/
def jtree_null (self : context) : Callback :=
  TRY self fun self => Body.returned { self with msg := "NULL value not permitted" } 0

/-- Modelled from the spec: `BitSet::set(offset)`, marking an offset as
touched; done only `if(back.assigned)`. -/
def mark (assigned : Bool) (offset : Nat) (bitSet : Finset Nat) : Finset Nat :=
  if assigned then insert offset bitSet else bitSet

/-- Modelled from the spec: `PVUnion::select(index)`, which is missing from the
sources: when `index` is the selected index the active value is returned,
otherwise a fresh value of alternative `index` becomes the active value and
`index` the selected index.  `none`: the node is not a union, or there is no
such alternative or value. -/
def select (heap : List PVField) (u : Addr) (index : Nat) : Option (Addr × List PVField) :=
  match heap[u]? with
  | some ⟨offset, fullName, PVData.union variant fields selector value⟩ =>
    if selector = some index then
      match value with
      | some a => some (a, heap)
      | none => none
    else
      match fields.toList[index]? with
      | none => none
      | some (name, type) =>
        match createPVField type name 0 heap with
        | (a, heap1, _) =>
          some (a, heap1.set u
            ⟨offset, fullName, PVData.union variant fields (some index) (some a)⟩)
  | _ => none

/-- How the selection loop of a selecting union ends. -/
inductive SelectResult where
  | assigned (heap : List PVField)
  | notAssigned (heap : List PVField)
  | rethrow (heap : List PVField) (what : String)
  | undefined
deriving DecidableEq

/-- Lines 105-119 of `valueAssign`: the loop over the alternatives of a
selecting union.  The list holds the alternatives not yet visited, `i` is the
loop variable and `N` the number of alternatives.  A non-scalar alternative is
skipped; `select<PVScalar>(i)` followed by `putFrom(val)` either assigns
(`break`) or throws a `std::runtime_error`, which is rethrown `if(i==N-1)`
and swallowed otherwise. -/
def selectLoop (lib : Library) (val : AnyScalar) (u : Addr) (N : Nat) :
    List (String × Field) → Nat → List PVField → SelectResult
  | [], _, heap => SelectResult.notAssigned heap
  | (_, type) :: rest, i, heap =>
    match type with
    | Field.scalar _ =>
      match select heap u i with
      | none => SelectResult.undefined
      | some (ufld, heap1) =>
        match heap1[ufld]? with
        | some ⟨offset, fullName, PVData.scalar t _⟩ =>
          match lib.putFrom t val with
          | Except.ok v =>
            SelectResult.assigned (heap1.set ufld ⟨offset, fullName, PVData.scalar t (some v)⟩)
          | Except.error what =>
            if i = N - 1 then SelectResult.rethrow heap1 what
            else selectLoop lib val u N rest (i + 1) heap1
        | _ => SelectResult.undefined
    | _ => selectLoop lib val u N rest (i + 1) heap

/-- The function template `valueAssign` (lines 55-131), for a literal `val` of
any of the four kinds. -/
def valueAssign (lib : Library) (self : context) (val : AnyScalar) : Body Unit :=
  match self.stack with
  | [] => Body.assertFailed
  | back :: rest =>
    match self.heap[back.fld]? with
    | none => Body.undefined
    | some ⟨offset, fullName, PVData.scalar t _⟩ =>
      match lib.putFrom t val with
      | Except.error what => Body.threw self what
      | Except.ok v =>
        Body.returned
          { self with
            heap := self.heap.set back.fld ⟨offset, fullName, PVData.scalar t (some v)⟩
            bitSet := mark back.assigned offset self.bitSet
            stack := rest } ()
    | some ⟨offset, fullName, PVData.scalarArray t carr⟩ =>
      if t ≠ val.type then Body.threw self "wrong type for scalar array"
      else
        Body.returned
          { self with
            heap := self.heap.set back.fld
              ⟨offset, fullName, PVData.scalarArray t (carr ++ [val])⟩ } ()
    | some ⟨offset, fullName, PVData.union variant fields selector _⟩ =>
      if variant then
        let elem := self.heap.length
        let heap1 := self.heap ++ [⟨0, "", PVData.scalar val.type (some val)⟩]
        Body.returned
          { self with
            heap := heap1.set back.fld
              ⟨offset, fullName, PVData.union variant fields selector (some elem)⟩
            bitSet := mark back.assigned offset self.bitSet
            stack := rest } ()
      else
        match selectLoop lib val back.fld fields.toList.length fields.toList 0 self.heap with
        | SelectResult.undefined => Body.undefined
        | SelectResult.rethrow heap1 what => Body.threw { self with heap := heap1 } what
        | SelectResult.notAssigned heap1 =>
          Body.threw { self with heap := heap1 } "Unable to select union member"
        | SelectResult.assigned heap1 =>
          Body.returned
            { self with
              heap := heap1
              bitSet := mark back.assigned offset self.bitSet
              stack := rest } ()
    | some _ => Body.threw self "Can't assign value"

/-- The shared shape of `jtree_boolean`, `jtree_integer`, `jtree_double` and
`jtree_string`: `TRY { valueAssign(self, val); return 1; } CATCH()`. -/
def jtree_value (lib : Library) (self : context) (val : AnyScalar) : Callback :=
  TRY self fun self =>
    match valueAssign lib self val with
    | Body.returned self1 _ => Body.returned self1 1
    | Body.threw self1 what => Body.threw self1 what
    | Body.assertFailed => Body.assertFailed
    | Body.undefined => Body.undefined

/-- The callback `jtree_boolean` (lines 133-139); the value is `!!boolVal`. -/
def jtree_boolean (lib : Library) (self : context) (boolVal : Int) : Callback :=
  jtree_value lib self (AnyScalar.boolean (decide (boolVal ≠ 0)))

/-- The callback `jtree_integer` (lines 141-147). -/
def jtree_integer (lib : Library) (self : context) (integerVal : Int) : Callback :=
  jtree_value lib self (AnyScalar.integer integerVal)

/-- The callback `jtree_double` (lines 149-155). -/
def jtree_double (lib : Library) (self : context) (doubleVal : Nat) : Callback :=
  jtree_value lib self (AnyScalar.double doubleVal)

/-- The callback `jtree_string` (lines 157-165). -/
def jtree_string (lib : Library) (self : context) (stringVal : String) : Callback :=
  jtree_value lib self (AnyScalar.string stringVal)

/-- The callback `jtree_start_map` (lines 167-190).  The new element of a
structure array is created by `createPVStructure` of its element descriptor
and pushed with a null change set pointer. -/
def jtree_start_map (self : context) : Callback :=
  TRY self fun self =>
    match self.stack with
    | [] => Body.assertFailed
    | back :: _ =>
      match self.heap[back.fld]? with
      | none => Body.undefined
      | some ⟨_, _, PVData.structure _⟩ => Body.returned self 1
      | some ⟨_, _, PVData.structureArray elem _⟩ =>
        match createPVField (Field.structure elem) "" 0 self.heap with
        | (a, heap1, _) =>
          match heap1[a]? with
          | none => Body.undefined
          | some e =>
            if e.getType = Type_.structure then
              Body.returned { self with heap := heap1, stack := ⟨a, false⟩ :: self.stack } 1
            else Body.assertFailed
      | some _ => Body.threw self "Can't map (sub)structure"

/-- Modelled from the spec: the lookup of a direct child by name, the
successful case of `getSubFieldT(name)`. -/
def getSubField (fields : List (String × Addr)) (name : String) : Option Addr :=
  match fields with
  | [] => none
  | (n, a) :: rest => if n = name then some a else getSubField rest name

/-- The callback `jtree_map_key` (lines 192-212).  The top frame is cast to a
structure without a check (line 200); on another kind of node the behaviour is
undefined. -/
def jtree_map_key (lib : Library) (self : context) (name : String) : Callback :=
  TRY self fun self =>
    match self.stack with
    | [] => Body.assertFailed
    | back :: _ =>
      match self.heap[back.fld]? with
      | some ⟨_, fullName, PVData.structure fields⟩ =>
        match getSubField fields name with
        | some a => Body.returned { self with stack := ⟨a, back.assigned⟩ :: self.stack } 1
        | none =>
          Body.threw self ("At " ++ fullName ++ " : " ++ lib.getSubFieldError name ++ "\n")
      | _ => Body.undefined

/-- The callback `jtree_end_map` (lines 214-239).  The append to a structure
array is the cycle `swap`, `thaw`, `push_back`, `freeze`, `replace`. -/
def jtree_end_map (self : context) : Callback :=
  TRY self fun self =>
    match self.stack with
    | [] => Body.assertFailed
    | elem :: rest =>
      match self.heap[elem.fld]? with
      | none => Body.undefined
      | some e =>
        if e.getType ≠ Type_.structure then Body.assertFailed
        else
          match rest with
          | [] => Body.returned { self with stack := rest } 1
          | back :: _ =>
            match self.heap[back.fld]? with
            | none => Body.undefined
            | some ⟨offset, fullName, PVData.structureArray el cval⟩ =>
              Body.returned
                { self with
                  stack := rest
                  heap := self.heap.set back.fld
                    ⟨offset, fullName, PVData.structureArray el (cval ++ [elem.fld])⟩ } 1
            | some _ => Body.returned { self with stack := rest } 1

/-- The callback `jtree_start_array` (lines 241-252): no frame is pushed. -/
def jtree_start_array (self : context) : Callback :=
  TRY self fun self =>
    match self.stack with
    | [] => Body.assertFailed
    | back :: _ =>
      match self.heap[back.fld]? with
      | none => Body.undefined
      | some fld =>
        if fld.getType ≠ Type_.structureArray ∧ fld.getType ≠ Type_.scalarArray then
          Body.threw self "Can't assign array"
        else Body.returned self 1

/-- The callback `jtree_end_array` (lines 253-263): marks the offset of the top
frame when it has a change set and pops it, whatever its kind. -/
def jtree_end_array (self : context) : Callback :=
  TRY self fun self =>
    match self.stack with
    | [] => Body.assertFailed
    | back :: rest =>
      if back.assigned then
        match self.heap[back.fld]? with
        | none => Body.undefined
        | some fld =>
          Body.returned { self with bitSet := insert fld.fieldOffset self.bitSet, stack := rest } 1
      else Body.returned { self with stack := rest } 1

/-- A token event of the producer, one per callback of `jtree_cbs`
(lines 266-278). -/
inductive Event where
  | null
  | boolean (boolVal : Int)
  | integer (integerVal : Int)
  | double (doubleVal : Nat)
  | string (stringVal : String)
  | start_map
  | map_key (key : String)
  | end_map
  | start_array
  | end_array
deriving DecidableEq, Repr

/-- The dispatch of an event to its callback through `jtree_cbs`. -/
def callback (lib : Library) (self : context) : Event → Callback
  | Event.null => jtree_null self
  | Event.boolean v => jtree_boolean lib self v
  | Event.integer v => jtree_integer lib self v
  | Event.double v => jtree_double lib self v
  | Event.string v => jtree_string lib self v
  | Event.start_map => jtree_start_map self
  | Event.map_key k => jtree_map_key lib self k
  | Event.end_map => jtree_end_map self
  | Event.start_array => jtree_start_array self
  | Event.end_array => jtree_end_array self

/-- Modelled from the spec: the token-stream producer, which is missing from
the sources: it invokes the callbacks in the order of the events and stops at
the first callback that returns 0.  The result is that of the last callback
invoked (`returned self 1` when every callback returned 1). -/
def run (lib : Library) : context → List Event → Callback
  | self, [] => Callback.returned self 1
  | self, e :: es =>
    match callback lib self e with
    | Callback.returned self1 r => if r = 0 then Callback.returned self1 0 else run lib self1 es
    | Callback.assertFailed => Callback.assertFailed
    | Callback.undefined => Callback.undefined

/-- A JSON document. -/
inductive JSON where
  | null
  | boolean (v : Bool)
  | integer (v : Int)
  | double (bits : Nat)
  | string (v : String)
  | array (elements : List JSON)
  | object (members : List (String × JSON))

mutual
/-- Modelled from the spec: the event stream of a JSON document, as the
producer delivers it. -/
def events : JSON → List Event
  | JSON.null => [Event.null]
  | JSON.boolean v => [Event.boolean (if v then 1 else 0)]
  | JSON.integer v => [Event.integer v]
  | JSON.double bits => [Event.double bits]
  | JSON.string v => [Event.string v]
  | JSON.array elements => Event.start_array :: (eventsOfElements elements ++ [Event.end_array])
  | JSON.object members => Event.start_map :: (eventsOfMembers members ++ [Event.end_map])
/-- The events of the elements of an array, in order. -/
def eventsOfElements : List JSON → List Event
  | [] => []
  | x :: xs => events x ++ eventsOfElements xs
/-- The events of the members of an object, in order: the key, then the
value. -/
def eventsOfMembers : List (String × JSON) → List Event
  | [] => []
  | (k, v) :: kvs => Event.map_key k :: (events v ++ eventsOfMembers kvs)
end

/-- How `parseJSON` ends. -/
inductive ParseResult where
  | done (heap : List PVField) (bitSet : Finset Nat)
  | runtime_error (what : String)
  | logic_error (what : String)
  | assertFailed
  | undefined
deriving DecidableEq

/-- The entry point `parseJSON` (lines 297-316), on the events of the input
stream: a `std::runtime_error` with the message of the engine when the parse
was aborted, a `std::logic_error` when the cursor stack is not empty at the
end. -/
def parseJSON (lib : Library) (heap : List PVField) (dest : Addr) (assigned : Bool)
    (bitSet : Finset Nat) (input : List Event) : ParseResult :=
  match run lib (context.new heap dest assigned bitSet) input with
  | Callback.assertFailed => ParseResult.assertFailed
  | Callback.undefined => ParseResult.undefined
  | Callback.returned ctxt r =>
    if r = 0 then ParseResult.runtime_error ctxt.msg
    else if ctxt.stack ≠ [] then ParseResult.logic_error "field stack not empty"
    else ParseResult.done ctxt.heap ctxt.bitSet

/-- A sample library for concrete runs: a scalar accepts the literals of its
own kind (an integer scalar of any width an integer literal, a floating scalar
a floating literal) and a text scalar every text; everything else is
rejected. -/
def sampleLib : Library :=
  { putFrom := fun t val =>
      match t, val with
      | ScalarType.pvBoolean, AnyScalar.boolean v => Except.ok (AnyScalar.boolean v)
      | ScalarType.pvByte, AnyScalar.integer v => Except.ok (AnyScalar.integer v)
      | ScalarType.pvShort, AnyScalar.integer v => Except.ok (AnyScalar.integer v)
      | ScalarType.pvInt, AnyScalar.integer v => Except.ok (AnyScalar.integer v)
      | ScalarType.pvLong, AnyScalar.integer v => Except.ok (AnyScalar.integer v)
      | ScalarType.pvFloat, AnyScalar.double v => Except.ok (AnyScalar.double v)
      | ScalarType.pvDouble, AnyScalar.double v => Except.ok (AnyScalar.double v)
      | ScalarType.pvString, AnyScalar.string v => Except.ok (AnyScalar.string v)
      | ScalarType.pvString, _ => Except.error "not a text"
      | ScalarType.pvBoolean, _ => Except.error "not a boolean"
      | _, _ => Except.error "not a number"
    getSubFieldError := fun name => "no field " ++ name }

/-- A target structure with a `long` scalar `a` (offset 1) and an empty `long`
array `b` (offset 2); the root is node 0. -/
def heapAB : List PVField :=
  [ ⟨0, "", PVData.structure [("a", 1), ("b", 2)]⟩,
    ⟨1, "a", PVData.scalar ScalarType.pvLong none⟩,
    ⟨2, "b", PVData.scalarArray ScalarType.pvLong []⟩ ]

/-- A target that is one empty `long` array. -/
def heapArray : List PVField :=
  [ ⟨0, "", PVData.scalarArray ScalarType.pvLong []⟩ ]

/-- The fields of an element structure with a `long` array `b` and a `long`
scalar `c`. -/
def elemBC : Fields :=
  Fields.cons "b" (Field.scalarArray ScalarType.pvLong)
    (Fields.cons "c" (Field.scalar ScalarType.pvLong) Fields.nil)

/-- A target that is one empty structure array of `elemBC` elements. -/
def heapStructureArray : List PVField :=
  [ ⟨0, "", PVData.structureArray elemBC []⟩ ]

/-- A target structure (node 0, offset 0) with a structure `r` (node 1, offset
1) that has a structure array `sa` (node 2, offset 2) of `elemBC` elements. -/
def heapNested : List PVField :=
  [ ⟨0, "", PVData.structure [("r", 1)]⟩,
    ⟨1, "r", PVData.structure [("sa", 2)]⟩,
    ⟨2, "r.sa", PVData.structureArray elemBC []⟩ ]

/-- The document `[[1]]`. -/
def docNestedArray : JSON := JSON.array [JSON.array [JSON.integer 1]]

/-- The document `[{"b": [[]], "c": 1}]`. -/
def docElementNestedArray : JSON :=
  JSON.array [JSON.object [("b", JSON.array [JSON.array []]), ("c", JSON.integer 1)]]

/-- The document `{"r": {"sa": [{"b": [[[]]]}]}}`. -/
def docDeepNestedArray : JSON :=
  JSON.object [("r", JSON.object [("sa",
    JSON.array [JSON.object [("b", JSON.array [JSON.array [JSON.array []]])]])])]

/-- The active value of a union fits its selected index: when a scalar
alternative is selected, the active value is a scalar node of the type of that
alternative. -/
def UnionValueOK (heap : List PVField) (fields : Fields) (selector : Option Nat)
    (value : Option Addr) : Prop :=
  ∀ (i : Nat) (name : String) (t : ScalarType),
    selector = some i → fields.toList[i]? = some (name, Field.scalar t) →
    ∃ (a : Nat) (offset : Nat) (fullName : String) (old : Option AnyScalar),
      value = some a ∧ heap[a]? = some ⟨offset, fullName, PVData.scalar t old⟩

/-- The alternatives `{intVal: int, strVal: text}` of a selecting union. -/
def intOrText : Fields :=
  Fields.cons "intVal" (Field.scalar ScalarType.pvInt)
    (Fields.cons "strVal" (Field.scalar ScalarType.pvString) Fields.nil)

/-- A target that is one unselected selecting union of `intOrText`. -/
def heapUnion : List PVField :=
  [ ⟨0, "", PVData.union false intOrText none none⟩ ]

/-- The alternatives `{a: long, b: long[]}` of a selecting union: the last
declared alternative is not a scalar. -/
def longOrArray : Fields :=
  Fields.cons "a" (Field.scalar ScalarType.pvLong)
    (Fields.cons "b" (Field.scalarArray ScalarType.pvLong) Fields.nil)

/-- A target that is one unselected selecting union of `longOrArray`. -/
def heapUnionArray : List PVField :=
  [ ⟨0, "", PVData.union false longOrArray none none⟩ ]

/-- The error that the selection loop rethrows when no alternative accepts the
literal `val`: that of the last declared alternative, provided it is a scalar
(the test `i==N-1` of line 113); `none` when the loop ends without a
rethrow. -/
def lastError (lib : Library) (val : AnyScalar) (alts : List (String × Field)) :
    Option String :=
  match alts.getLast? with
  | some (_, Field.scalar t) =>
    match lib.putFrom t val with
    | Except.error what => some what
    | Except.ok _ => none
  | _ => none

end epics.pvData

namespace epics.pvData

/-! ## Heap arrays -/

theorem readAt_natCast (a : List PVStructurePtr) (n : Nat) :
    readAt a (n : Int) = a[n]? := by
  simp [readAt]

theorem readAt_neg (a : List PVStructurePtr) (i : Int) (h : i < 0) :
    readAt a i = none := by
  simp [readAt, not_le.mpr h]

theorem writeAt_natCast (a : List PVStructurePtr) (n : Nat) (v : PVStructurePtr)
    (h : n < a.length) : writeAt a (n : Int) v = some (a.set n v) := by
  simp [writeAt, h]

theorem writeAt_length (a b : List PVStructurePtr) (i : Int) (v : PVStructurePtr)
    (h : writeAt a i v = some b) : b.length = a.length := by
  unfold writeAt at h
  split at h
  · cases h; simp
  · cases h

/-! ## The loops of `setCapacity` -/

theorem copyLoop_spec (value : List PVStructurePtr) :
    ∀ (k a : Nat) (nv : List PVStructurePtr),
      a + k ≤ value.length → a + k ≤ nv.length →
      ∃ r, copyLoop value k (a : Int) nv = some r ∧ r.length = nv.length ∧
        ∀ j : Nat, r[j]? = if a ≤ j ∧ j < a + k then value[j]? else nv[j]? := by
  intro k
  induction k with
  | zero =>
    intro a nv _ _
    refine ⟨nv, rfl, rfl, ?_⟩
    intro j
    rw [if_neg (by omega)]
  | succ k ih =>
    intro a nv hv hn
    have hav : a < value.length := by omega
    have han : a < nv.length := by omega
    obtain ⟨r, hr, hlen, hget⟩ := ih (a + 1) (nv.set a value[a]) (by omega)
      (by simp; omega)
    refine ⟨r, ?_, by simpa using hlen, ?_⟩
    · have h1 : readAt value (a : Int) = some value[a] := by
        rw [readAt_natCast]; exact List.getElem?_eq_getElem hav
      have h2 : ((a : Int) + 1) = ((a + 1 : Nat) : Int) := by push_cast; rfl
      simp only [copyLoop, h1, writeAt_natCast nv a _ han, h2]
      exact hr
    · intro j
      rw [hget j]
      by_cases hj : j = a
      · subst hj
        have c1 : ¬ (j + 1 ≤ j ∧ j < j + 1 + k) := by omega
        have c2 : j ≤ j ∧ j < j + (k + 1) := by omega
        simp [c1, c2, han, List.getElem?_eq_getElem hav]
      · by_cases hc : a ≤ j ∧ j < a + (k + 1)
        · have c1 : a + 1 ≤ j ∧ j < a + 1 + k := by omega
          simp [c1, hc]
        · have c1 : ¬ (a + 1 ≤ j ∧ j < a + 1 + k) := by omega
          have hne : a ≠ j := fun h => hj h.symm
          simp [c1, hc, List.getElem?_set_ne hne]

theorem fillLoop_spec :
    ∀ (k a : Nat) (nv : List PVStructurePtr),
      a + k ≤ nv.length →
      ∃ r, fillLoop k (a : Int) nv = some r ∧ r.length = nv.length ∧
        ∀ j : Nat, r[j]? = if a ≤ j ∧ j < a + k then some none else nv[j]? := by
  intro k
  induction k with
  | zero =>
    intro a nv _
    refine ⟨nv, rfl, rfl, ?_⟩
    intro j
    rw [if_neg (by omega)]
  | succ k ih =>
    intro a nv hn
    have han : a < nv.length := by omega
    obtain ⟨r, hr, hlen, hget⟩ := ih (a + 1) (nv.set a none) (by simp; omega)
    refine ⟨r, ?_, by simpa using hlen, ?_⟩
    · have h2 : ((a : Int) + 1) = ((a + 1 : Nat) : Int) := by push_cast; rfl
      simp only [fillLoop, writeAt_natCast nv a _ han, h2]
      exact hr
    · intro j
      rw [hget j]
      by_cases hj : j = a
      · subst hj
        have c1 : ¬ (j + 1 ≤ j ∧ j < j + 1 + k) := by omega
        have c2 : j ≤ j ∧ j < j + (k + 1) := by omega
        simp [c1, c2, han]
      · by_cases hc : a ≤ j ∧ j < a + (k + 1)
        · have c1 : a + 1 ≤ j ∧ j < a + 1 + k := by omega
          simp [c1, hc]
        · have c1 : ¬ (a + 1 ≤ j ∧ j < a + 1 + k) := by omega
          have hne : a ≠ j := fun h => hj h.symm
          simp [c1, hc, List.getElem?_set_ne hne]

/-! ## `setCapacity` -/

/-- A reallocating `setCapacity`: the call is defined, and the new backing
array is described cell by cell. -/
theorem setCapacity_realloc (self : BasePVStructureArray) (n : Int)
    (hne : self.capacity ≠ n) (hm : self.capacityMutable = true) (hn : 0 ≤ n)
    (hL : 0 ≤ self.length) (hv : self.length ≤ (self.value.length : Int)) :
    ∃ v, setCapacity self n
        = some { self with value := v, capacity := n, length := min self.length n } ∧
      v.length = n.toNat ∧
      ∀ j : Nat, v[j]? = if (j : Int) < min self.length n then self.value[j]?
        else if (j : Int) < n then some none else none := by
  have hlim : (if self.length > n then n else self.length) = min self.length n := by
    split <;> omega
  have hlim0 : 0 ≤ min self.length n := by omega
  obtain ⟨r1, h1, l1, g1⟩ := copyLoop_spec self.value (min self.length n).toNat 0
    (List.replicate n.toNat none) (by omega) (by rw [List.length_replicate]; omega)
  obtain ⟨r2, h2, l2, g2⟩ := fillLoop_spec (n - min self.length n).toNat
    (min self.length n).toNat r1 (by rw [l1, List.length_replicate]; omega)
  have hcast : (((min self.length n).toNat : Nat) : Int) = min self.length n :=
    Int.toNat_of_nonneg hlim0
  rw [hcast] at h2
  rw [Nat.cast_zero] at h1
  refine ⟨r2, ?_, ?_, ?_⟩
  · unfold setCapacity
    simp only [getCapacity, isCapacityMutable, getLength, hm, hlim, if_neg hne,
      if_neg (not_lt.mpr hn), h1, h2, setCapacityLength]
    simp
  · rw [l2, l1]; simp
  · intro j
    rw [g2 j, g1 j]
    by_cases c1 : (j : Int) < min self.length n
    · have a1 : ¬ ((min self.length n).toNat ≤ j ∧
          j < (min self.length n).toNat + (n - min self.length n).toNat) := by omega
      have a2 : 0 ≤ j ∧ j < 0 + (min self.length n).toNat := by omega
      rw [if_neg a1, if_pos a2, if_pos c1]
    · by_cases c2 : (j : Int) < n
      · have a1 : (min self.length n).toNat ≤ j ∧
            j < (min self.length n).toNat + (n - min self.length n).toNat := by omega
        rw [if_pos a1, if_neg c1, if_pos c2]
      · have a1 : ¬ ((min self.length n).toNat ≤ j ∧
            j < (min self.length n).toNat + (n - min self.length n).toNat) := by omega
        have a2 : ¬ (0 ≤ j ∧ j < 0 + (min self.length n).toNat) := by omega
        rw [if_neg a1, if_neg a2, if_neg c1, if_neg c2]
        rw [List.getElem?_eq_none]
        simp; omega

theorem copyLoop_length (value : List PVStructurePtr) :
    ∀ (k : Nat) (i : Int) (nv r : List PVStructurePtr),
      copyLoop value k i nv = some r → r.length = nv.length := by
  intro k
  induction k with
  | zero => intro i nv r h; cases h; rfl
  | succ k ih =>
    intro i nv r h
    unfold copyLoop at h
    split at h
    · cases h
    · split at h
      · cases h
      · rename_i nv1 hw
        rw [ih _ _ _ h, writeAt_length _ _ _ _ hw]

theorem fillLoop_length :
    ∀ (k : Nat) (i : Int) (nv r : List PVStructurePtr),
      fillLoop k i nv = some r → r.length = nv.length := by
  intro k
  induction k with
  | zero => intro i nv r h; cases h; rfl
  | succ k ih =>
    intro i nv r h
    unfold fillLoop at h
    split at h
    · cases h
    · rename_i nv1 hw
      rw [ih _ _ _ h, writeAt_length _ _ _ _ hw]

/-- What a `setCapacity` call that returns can have done: nothing to capacity,
length and elements, or a reallocation to a non-negative capacity. -/
theorem setCapacity_some (self self1 : BasePVStructureArray) (n : Int)
    (h : setCapacity self n = some self1) :
    self1.structureArray = self.structureArray ∧ self1.immutable = self.immutable ∧
    self1.capacityMutable = self.capacityMutable ∧ self1.postPutCount = self.postPutCount ∧
    ((self1.capacity = self.capacity ∧ self1.length = self.length ∧
        self1.value = self.value) ∨
      (0 ≤ n ∧ self1.capacity = n ∧ self1.length = min self.length n ∧
        (self1.value.length : Int) = n)) := by
  unfold setCapacity at h
  split at h
  · cases h; simp
  · split at h
    · cases h; simp [message]
    · simp only [getLength] at h
      split at h
      · cases h
      · rename_i hneg
        split at h
        · cases h
        · rename_i r1 h1
          split at h
          · cases h
          · rename_i r2 h2
            cases h
            have hlim : (if self.length > n then n else self.length) = min self.length n := by
              split <;> omega
            have l1 := copyLoop_length _ _ _ _ _ h1
            have l2 := fillLoop_length _ _ _ _ h2
            refine ⟨rfl, rfl, rfl, rfl, Or.inr ⟨by omega, rfl, ?_, ?_⟩⟩
            · simp only [setCapacityLength]; exact hlim
            · simp only [setCapacityLength]
              rw [l2, l1, List.length_replicate]; omega

/-! ## 32-bit arithmetic -/

theorem wrap_eq (x : Int) (h1 : INT_MIN ≤ x) (h2 : x ≤ INT_MAX) : wrap x = x := by
  unfold INT_MIN at h1
  unfold INT_MAX at h2
  unfold wrap
  omega

/-! ## The element loop of `put` -/

theorem readAt_writeAt (a b : List PVStructurePtr) (i : Int) (v : PVStructurePtr)
    (h : writeAt a i v = some b) (j : Int) :
    readAt b j = if j = i then some v else readAt a j := by
  unfold writeAt at h
  split at h
  · rename_i hb
    cases h
    by_cases hj : j = i
    · subst hj
      have hlt : j.toNat < a.length := by omega
      simp [readAt, hb.1, hlt]
    · rw [if_neg hj]
      unfold readAt
      by_cases h0 : 0 ≤ j
      · have hne : i.toNat ≠ j.toNat := by omega
        simp [h0, List.getElem?_set_ne hne]
      · simp [h0]
  · cases h

theorem readAt_some (a : List PVStructurePtr) (i : Int) (v : PVStructurePtr)
    (h : readAt a i = some v) : 0 ≤ i ∧ i < (a.length : Int) := by
  unfold readAt at h
  split at h
  · rename_i h0
    have := (List.getElem?_eq_some_iff.mp h).1
    exact ⟨h0, by omega⟩
  · cases h

theorem putLoop_length (st : StructureConstPtr) (src : PVStructurePtrArray)
    (fromOffset offset : Int) :
    ∀ (n : Nat) (i : Int) (value v1 : List PVStructurePtr),
      (putLoop st src fromOffset offset n i value = LoopResult.done v1 ∨
        putLoop st src fromOffset offset n i value = LoopResult.threw v1) →
      v1.length = value.length := by
  intro n
  induction n with
  | zero =>
    intro i value v1 h
    rcases h with h | h
    · simp only [putLoop] at h; cases h; rfl
    · simp only [putLoop] at h; cases h
  | succ n ih =>
    intro i value v1 h
    unfold putLoop at h
    split at h
    · rcases h with h | h <;> cases h
    · split at h
      · rcases h with h | h <;> cases h
      · rename_i value1 hw
        rw [ih _ _ _ h, writeAt_length _ _ _ _ hw]
    · split at h
      · rcases h with h | h
        · cases h
        · cases h; rfl
      · split at h
        · rcases h with h | h <;> cases h
        · rename_i value1 hw
          rw [ih _ _ _ h, writeAt_length _ _ _ _ hw]

/-- One iteration of the element loop on an element that is null or of the
declared descriptor, read from another array and written inside the
allocation, the two index computations staying in the range of `int`. -/
theorem putLoop_step (st : StructureConstPtr) (cells : List PVStructurePtr)
    (fromOffset offset : Int) (n : Nat) (a : Int) (value : List PVStructurePtr)
    (e : PVStructurePtr) (hr : readAt cells (a + fromOffset) = some e)
    (he : ∀ pv, e = some pv → pv.getStructure = st)
    (hwf : wrap (a + fromOffset) = a + fromOffset)
    (hwo : wrap (a + offset) = a + offset)
    (hb : 0 ≤ a + offset ∧ a + offset < (value.length : Int)) :
    putLoop st (PVStructurePtrArray.other cells) fromOffset offset (n + 1) a value
      = putLoop st (PVStructurePtrArray.other cells) fromOffset offset n (a + 1)
          (value.set (a + offset).toNat e) ∧
    writeAt value (a + offset) e = some (value.set (a + offset).toNat e) := by
  have hw : ∀ v, writeAt value (a + offset) v = some (value.set (a + offset).toNat v) := by
    intro v; simp [writeAt, hb.1, hb.2]
  refine ⟨?_, hw e⟩
  cases e with
  | none => simp only [putLoop, readFrom, hwf, hwo, hr, hw]
  | some pv =>
    have hpv : pv.getStructure = st := he pv rfl
    simp only [putLoop, readFrom, hwf, hwo, hr, hw, hpv, ne_eq, not_true_eq_false, if_false]

theorem putLoop_threw (st : StructureConstPtr) (cells : List PVStructurePtr)
    (fromOffset offset : Int) :
    ∀ (k n : Nat) (a : Int) (value : List PVStructurePtr),
      k < n →
      (∀ i : Nat, i < k → ∃ e, readAt cells (a + i + fromOffset) = some e ∧
        ∀ pv, e = some pv → pv.getStructure = st) →
      (∃ pv, readAt cells (a + k + fromOffset) = some (some pv) ∧ pv.getStructure ≠ st) →
      (∀ i : Nat, i < k → 0 ≤ a + i + offset ∧ a + i + offset < (value.length : Int)) →
      (∀ i : Nat, i ≤ k → wrap (a + i + fromOffset) = a + i + fromOffset) →
      (∀ i : Nat, i < k → wrap (a + i + offset) = a + i + offset) →
      ∃ v1, putLoop st (PVStructurePtrArray.other cells) fromOffset offset n a value
          = LoopResult.threw v1 ∧
        v1.length = value.length ∧
        ∀ j : Int, readAt v1 j =
          if a + offset ≤ j ∧ j < a + offset + k then readAt cells (j - offset + fromOffset)
          else readAt value j := by
  intro k
  induction k with
  | zero =>
    intro n a value hn _ hbad _ hwf _
    obtain ⟨m, rfl⟩ : ∃ m, n = m + 1 := ⟨n - 1, by omega⟩
    obtain ⟨pv, hpv, hne⟩ := hbad
    have hw0 := hwf 0 (by omega)
    simp only [Nat.cast_zero, add_zero] at hpv hw0
    refine ⟨value, ?_, rfl, ?_⟩
    · simp only [putLoop, readFrom, hw0, hpv, ne_eq, hne, not_false_eq_true, if_true]
    · intro j
      rw [if_neg]; simp only [Nat.cast_zero, add_zero]; omega
  | succ k ih =>
    intro n a value hn hok hbad hb hwf hwo
    obtain ⟨m, rfl⟩ : ∃ m, n = m + 1 := ⟨n - 1, by omega⟩
    obtain ⟨e, hr, he⟩ := hok 0 (by omega)
    have hwf0 := hwf 0 (by omega)
    have hwo0 := hwo 0 (by omega)
    have hb0 := hb 0 (by omega)
    simp only [Nat.cast_zero, add_zero] at hr hb0 hwf0 hwo0
    obtain ⟨hstep, hw⟩ := putLoop_step st cells fromOffset offset m a value e hr he hwf0 hwo0 hb0
    have hcf : ∀ i : Nat, a + ((i + 1 : Nat) : Int) + fromOffset
        = a + 1 + (i : Int) + fromOffset := by
      intro i; push_cast; ring
    have hco : ∀ i : Nat, a + ((i + 1 : Nat) : Int) + offset = a + 1 + (i : Int) + offset := by
      intro i; push_cast; ring
    obtain ⟨v1, h1, l1, g1⟩ := ih m (a + 1) (value.set (a + offset).toNat e) (by omega)
      (by
        intro i hi
        have := hok (i + 1) (by omega)
        rw [hcf] at this; exact this)
      (by
        obtain ⟨pv, hpv, hne⟩ := hbad
        rw [hcf] at hpv; exact ⟨pv, hpv, hne⟩)
      (by
        intro i hi
        have := hb (i + 1) (by omega)
        rw [List.length_set]
        push_cast at this
        omega)
      (by
        intro i hi
        have := hwf (i + 1) (by omega)
        rw [hcf] at this; exact this)
      (by
        intro i hi
        have := hwo (i + 1) (by omega)
        rw [hco] at this; exact this)
    refine ⟨v1, by rw [hstep]; exact h1, by rw [l1, List.length_set], ?_⟩
    intro j
    rw [g1 j, readAt_writeAt _ _ _ _ hw j]
    by_cases hj : j = a + offset
    · have c1 : ¬ (a + 1 + offset ≤ j ∧ j < a + 1 + offset + (k : Int)) := by omega
      have c2 : a + offset ≤ j ∧ j < a + offset + ((k + 1 : Nat) : Int) := by
        push_cast; omega
      rw [if_neg c1, if_pos hj, if_pos c2, hj]
      have : a + offset - offset + fromOffset = a + fromOffset := by ring
      rw [this, hr]
    · rw [if_neg hj]
      by_cases hc : a + offset ≤ j ∧ j < a + offset + ((k + 1 : Nat) : Int)
      · have c1 : a + 1 + offset ≤ j ∧ j < a + 1 + offset + (k : Int) := by
          push_cast at hc; omega
        rw [if_pos c1, if_pos hc]
      · have c1 : ¬ (a + 1 + offset ≤ j ∧ j < a + 1 + offset + (k : Int)) := by
          push_cast at hc; omega
        rw [if_neg c1, if_neg hc]

/-- The element loop is defined when every cell it reads lies inside the source
array, every cell it may write lies inside the backing array, and no index
leaves the range of `int`. -/
theorem putLoop_defined (st : StructureConstPtr) (cells : List PVStructurePtr)
    (fromOffset offset : Int) :
    ∀ (n : Nat) (a : Int) (value : List PVStructurePtr),
      0 ≤ a + fromOffset → a + n + fromOffset ≤ (cells.length : Int) →
      0 ≤ a + offset → a + n + offset ≤ (value.length : Int) →
      a + n + fromOffset ≤ INT_MAX → a + n + offset ≤ INT_MAX →
      putLoop st (PVStructurePtrArray.other cells) fromOffset offset n a value
        ≠ LoopResult.undefined := by
  intro n
  induction n with
  | zero => intro a value _ _ _ _ _ _; simp [putLoop]
  | succ n ih =>
    intro a value h1 h2 h3 h4 h5 h6
    push_cast at h2 h4 h5 h6
    have hwf : wrap (a + fromOffset) = a + fromOffset :=
      wrap_eq _ (by unfold INT_MIN; omega) (by omega)
    have hwo : wrap (a + offset) = a + offset :=
      wrap_eq _ (by unfold INT_MIN; omega) (by omega)
    have hlt : (a + fromOffset).toNat < cells.length := by omega
    have hr : readAt cells (a + fromOffset) = some cells[(a + fromOffset).toNat] := by
      simp [readAt, h1, List.getElem?_eq_getElem hlt]
    have hw : ∀ v, writeAt value (a + offset) v = some (value.set (a + offset).toNat v) := by
      intro v
      have : a + offset < (value.length : Int) := by omega
      simp [writeAt, h3, this]
    have hrec : ∀ v, putLoop st (PVStructurePtrArray.other cells) fromOffset offset n (a + 1)
        (value.set (a + offset).toNat v) ≠ LoopResult.undefined := by
      intro v
      apply ih
      · omega
      · omega
      · omega
      · rw [List.length_set]; omega
      · omega
      · omega
    unfold putLoop
    simp only [readFrom, hwf, hwo]
    rw [hr]
    cases hc : cells[(a + fromOffset).toNat] with
    | none => simp only [hw]; exact hrec _
    | some pv =>
      simp only [hw]
      split
      · simp
      · exact hrec _

/-! ## `put` -/

/-- The element phase of `put` changes neither capacity nor length nor the size
of the backing array. -/
theorem putElements_after (self self1 : BasePVStructureArray) (offset len : Int)
    (src : PVStructurePtrArray) (fromOffset : Int)
    (h : (putElements self offset len src fromOffset).after = some self1) :
    self1.capacity = self.capacity ∧ self1.length = self.length ∧
      self1.value.length = self.value.length := by
  unfold putElements at h
  split at h
  · cases h
  · rename_i v1 hl
    simp only [PutResult.after, Option.some.injEq] at h
    subst h
    exact ⟨rfl, rfl, putLoop_length _ _ _ _ _ _ _ _ (Or.inr hl)⟩
  · rename_i v1 hl
    simp only [PutResult.after, Option.some.injEq] at h
    subst h
    exact ⟨rfl, rfl, putLoop_length _ _ _ _ _ _ _ _ (Or.inl hl)⟩

/-- The element phase of `put` is defined when its window lies inside the
source array and inside the backing array, below the greatest `int`. -/
theorem putElements_defined (self : BasePVStructureArray) (offset len : Int)
    (cells : List PVStructurePtr) (fromOffset : Int)
    (hl : 0 ≤ len) (ho : 0 ≤ offset) (hf : 0 ≤ fromOffset)
    (hs : fromOffset + len ≤ (cells.length : Int))
    (hv : offset + len ≤ (self.value.length : Int))
    (hsf : fromOffset + len ≤ INT_MAX) (hso : offset + len ≤ INT_MAX) :
    ∃ self1, (putElements self offset len (PVStructurePtrArray.other cells) fromOffset).after
      = some self1 := by
  have hd := putLoop_defined self.structureArray cells fromOffset offset len.toNat 0 self.value
    (by omega) (by omega) (by omega) (by omega) (by omega) (by omega)
  unfold putElements
  split
  · rename_i hu; exact absurd hu hd
  · exact ⟨_, rfl⟩
  · exact ⟨_, rfl⟩

/-- Every defined call of `put` preserves `0 ≤ L ≤ C`, whatever the arguments
and wherever the source points. -/
theorem put_lengthInv (self self1 : BasePVStructureArray) (offset len : Int)
    (src : PVStructurePtrArray) (fromOffset : Int) (hinv : LengthInv self)
    (h : (put self offset len src fromOffset).after = some self1) : LengthInv self1 := by
  obtain ⟨hL, hLC⟩ := hinv
  unfold put at h
  split at h
  · simp only [PutResult.after, Option.some.injEq] at h
    subst h; exact ⟨hL, hLC⟩
  · split at h
    · simp only [PutResult.after, Option.some.injEq] at h
      subst h; exact ⟨hL, hLC⟩
    · split at h
      · simp only [PutResult.after, Option.some.injEq] at h
        subst h; exact ⟨hL, hLC⟩
      · simp only [getLength, getCapacity] at h
        split at h
        · rename_i hgrow
          split at h
          · rename_i hcap
            split at h
            · cases h
            · rename_i s1 hs1
              obtain ⟨_, _, _, _, hcases⟩ := setCapacity_some self s1 _ hs1
              split at h
              · simp only [PutResult.after, Option.some.injEq] at h
                subst h
                rcases hcases with ⟨c, l, _⟩ | ⟨_, c, l, _⟩
                · exact ⟨by omega, by omega⟩
                · exact ⟨by omega, by omega⟩
              · split at h
                · cases h
                · obtain ⟨c, l, _⟩ := putElements_after _ _ _ _ _ _ h
                  simp only [setLength] at c l
                  rcases hcases with ⟨c1, _, _⟩ | ⟨_, c1, _, _⟩
                  · exact ⟨by omega, by omega⟩
                  · exact ⟨by omega, by omega⟩
          · obtain ⟨c, l, _⟩ := putElements_after _ _ _ _ _ _ h
            simp only [setLength] at c l
            exact ⟨by omega, by omega⟩
        · obtain ⟨c, l, _⟩ := putElements_after _ _ _ _ _ _ h
          exact ⟨by omega, by omega⟩

/-- The effect of `setCapacity` on a well-formed container with mutable
capacity, slot by slot. -/
theorem setCapacity_post (self : BasePVStructureArray) (newCapacity : Int)
    (hwf : WellFormed self) (hm : self.capacityMutable = true) (hn : 0 ≤ newCapacity) :
    (newCapacity ≠ self.capacity →
      ∃ self1, setCapacity self newCapacity = some self1 ∧
        self1.capacity = newCapacity ∧
        self1.length = min self.length newCapacity ∧
        (self1.value.length : Int) = newCapacity ∧
        (∀ i : Int, 0 ≤ i → i < min self.length newCapacity →
          ∃ e, slot self i = some e ∧ slot self1 i = some e) ∧
        (∀ i : Int, min self.length newCapacity ≤ i → i < newCapacity →
          slot self1 i = some none)) ∧
    setCapacity self self.capacity = some self := by
  obtain ⟨hL, hLC, hV⟩ := hwf
  refine ⟨?_, by simp [setCapacity, getCapacity]⟩
  intro hne
  obtain ⟨v, hset, hlen, hget⟩ :=
    setCapacity_realloc self newCapacity (fun h => hne h.symm) hm hn hL (by omega)
  refine ⟨_, hset, rfl, rfl, ?_, ?_, ?_⟩
  · show (v.length : Int) = newCapacity
    rw [hlen]; omega
  · intro i hi0 hi
    have hiv : i.toNat < self.value.length := by omega
    refine ⟨self.value[i.toNat], ?_, ?_⟩
    · simp [slot, readAt, hi0, List.getElem?_eq_getElem hiv]
    · have hc : ((i.toNat : Nat) : Int) < min self.length newCapacity := by omega
      simp only [slot, readAt, hi0, if_true]
      rw [hget i.toNat, if_pos hc, List.getElem?_eq_getElem hiv]
  · intro i hi hin
    have hi0 : 0 ≤ i := by omega
    have hc : ¬ ((i.toNat : Nat) : Int) < min self.length newCapacity := by omega
    have hc2 : ((i.toNat : Nat) : Int) < newCapacity := by omega
    simp only [slot, readAt, hi0, if_true]
    rw [hget i.toNat, if_neg hc, if_pos hc2]

/-- A refused `setCapacity`: the capacity is not mutable and the requested
capacity differs from the current one. -/
theorem setCapacity_not_mutable (self : BasePVStructureArray) (newCapacity : Int)
    (hm : self.capacityMutable = false) (hne : newCapacity ≠ self.capacity) :
    setCapacity self newCapacity
      = some (message self "not capacityMutable" MessageType.errorMessage) := by
  have h : ¬ self.capacity = newCapacity := fun h => hne h.symm
  simp [setCapacity, getCapacity, isCapacityMutable, hm, h]

/-- On a well-formed container `setCapacity` with a non-negative capacity is
defined and returns a well-formed container. -/
theorem setCapacity_defined (self : BasePVStructureArray) (n : Int)
    (hwf : WellFormed self) (hn : 0 ≤ n) :
    ∃ self1, setCapacity self n = some self1 ∧ WellFormed self1 := by
  by_cases heq : n = self.capacity
  · subst heq
    exact ⟨self, by simp [setCapacity, getCapacity], hwf⟩
  · cases hm : self.capacityMutable with
    | false =>
      refine ⟨_, setCapacity_not_mutable self n hm heq, ?_⟩
      exact hwf
    | true =>
      obtain ⟨self1, h1, c1, l1, v1, _, _⟩ := (setCapacity_post self n hwf hm hn).1 heq
      obtain ⟨hL, hLC, hV⟩ := hwf
      exact ⟨self1, h1, by omega, by omega, by omega⟩

/-- On a well-formed container `put` from another array is defined when the
offsets are not negative, the source covers the requested window and neither
window passes the greatest `int`. -/
theorem put_defined (self : BasePVStructureArray) (offset len : Int)
    (cells : List PVStructurePtr) (fromOffset : Int) (hwf : WellFormed self)
    (ho : 0 ≤ offset) (hf : 0 ≤ fromOffset) (hs : fromOffset + len ≤ (cells.length : Int))
    (hso : offset + len ≤ INT_MAX) (hsf : fromOffset + len ≤ INT_MAX) :
    ∃ self1, (put self offset len (PVStructurePtrArray.other cells) fromOffset).after
      = some self1 := by
  have hwf0 := hwf
  obtain ⟨hL, hLC, hV⟩ := hwf
  unfold put
  split
  · exact ⟨_, rfl⟩
  · simp only [sameArray, Bool.false_eq_true, if_false]
    split
    · exact ⟨_, rfl⟩
    · have hw : wrap (offset + len) = offset + len :=
        wrap_eq _ (by unfold INT_MIN; omega) hso
      simp only [getLength, getCapacity, hw]
      split
      · split
        · obtain ⟨s1, h1, _⟩ := setCapacity_defined self (offset + len) hwf0 (by omega)
          obtain ⟨_, _, _, _, hcases⟩ := setCapacity_some self s1 _ h1
          have hw1 : wrap (self.capacity - offset) = self.capacity - offset :=
            wrap_eq _ (by unfold INT_MIN; unfold INT_MAX at hso; omega) (by omega)
          rw [h1]
          simp only [hw1, aliases, Bool.false_and, Bool.false_eq_true, if_false]
          split
          · exact ⟨_, rfl⟩
          · apply putElements_defined
            · omega
            · exact ho
            · exact hf
            · omega
            · simp only [setLength]
              rcases hcases with ⟨_, _, v⟩ | ⟨_, _, _, v⟩
              · rw [v]; omega
              · omega
            · omega
            · omega
        · apply putElements_defined
          · omega
          · exact ho
          · exact hf
          · omega
          · simp only [setLength]; omega
          · exact hsf
          · exact hso
      · apply putElements_defined
        · omega
        · exact ho
        · exact hf
        · omega
        · omega
        · exact hsf
        · exact hso

/-- The element phase of `put` at the first element of a foreign descriptor:
the exception is thrown with the elements before it written. -/
theorem putElements_threw (self : BasePVStructureArray) (offset n : Int)
    (cells : List PVStructurePtr) (fromOffset : Int) (k : Nat)
    (hk : (k : Int) < n)
    (hok : ∀ i : Nat, i < k → ∃ e, readAt cells (i + fromOffset) = some e ∧
      ∀ pv, e = some pv → pv.getStructure = self.structureArray)
    (hbad : ∃ pv, readAt cells (k + fromOffset) = some (some pv) ∧
      pv.getStructure ≠ self.structureArray)
    (ho : 0 ≤ offset)
    (hv : offset + n ≤ (self.value.length : Int))
    (hmax : offset + n ≤ INT_MAX) (hfk : fromOffset + k ≤ INT_MAX) :
    ∃ v1, putElements self offset n (PVStructurePtrArray.other cells) fromOffset
        = PutResult.threw { self with value := v1 } notCompatible ∧
      v1.length = self.value.length ∧
      ∀ j : Int, readAt v1 j =
        if offset ≤ j ∧ j < offset + k then readAt cells (j - offset + fromOffset)
        else readAt self.value j := by
  have hlow : ∀ i : Nat, i ≤ k → 0 ≤ (i : Int) + fromOffset := by
    intro i hi
    rcases Nat.lt_or_ge i k with hlt | hge
    · obtain ⟨e, he, _⟩ := hok i hlt
      exact (readAt_some _ _ _ he).1
    · obtain ⟨pv, hpv, _⟩ := hbad
      have hik : i = k := by omega
      rw [hik]
      exact (readAt_some _ _ _ hpv).1
  obtain ⟨v1, h1, l1, g1⟩ := putLoop_threw self.structureArray cells fromOffset offset
    k n.toNat 0 self.value (by omega)
    (by intro i hi; simpa using hok i hi)
    (by simpa using hbad)
    (by intro i hi; omega)
    (by
      intro i hi
      have := hlow i hi
      exact wrap_eq _ (by unfold INT_MIN; omega) (by omega))
    (by
      intro i hi
      exact wrap_eq _ (by unfold INT_MIN; omega) (by omega))
  refine ⟨v1, ?_, l1, ?_⟩
  · unfold putElements
    rw [h1]
  · intro j
    rw [g1 j]
    simp only [zero_add]

/-- The phase of `put` before the element loop (lines 105-123) when the write
window ends inside the capacity: the element loop runs over `len` elements on
the backing array as it is. -/
theorem put_within_capacity (self : BasePVStructureArray) (offset len : Int)
    (cells : List PVStructurePtr) (fromOffset : Int)
    (him : self.immutable = false) (ho : 0 ≤ offset) (hlen : 1 ≤ len)
    (hsum : offset + len ≤ self.capacity) (hmax : offset + len ≤ INT_MAX) :
    ∃ s0, put self offset len (PVStructurePtrArray.other cells) fromOffset
        = putElements s0 offset len (PVStructurePtrArray.other cells) fromOffset ∧
      s0.structureArray = self.structureArray ∧
      s0.postPutCount = self.postPutCount ∧
      s0.capacity = self.capacity ∧
      s0.value = self.value := by
  have hw : wrap (offset + len) = offset + len := wrap_eq _ (by unfold INT_MIN; omega) hmax
  have hlt : ¬ len < 1 := by omega
  have hc : ¬ offset + len > self.capacity := by omega
  by_cases hg : offset + len > self.length
  · refine ⟨setLength self (offset + len), ?_, rfl, rfl, rfl, rfl⟩
    simp only [put, isImmutable, him, sameArray, hlt, getLength, getCapacity, hw, if_false,
      Bool.false_eq_true]
    simp [hg, hc]
  · refine ⟨self, ?_, rfl, rfl, rfl, rfl⟩
    simp only [put, isImmutable, him, sameArray, hlt, getLength, getCapacity, hw, if_false,
      Bool.false_eq_true]
    simp [hg]

/-- The phase of `put` before the element loop (lines 105-123) when the write
window ends past the capacity and the capacity is not mutable: `setCapacity`
reports and changes nothing else, and the element loop runs over
`capacity - offset` elements on the backing array as it is. -/
theorem put_clipped (self : BasePVStructureArray) (offset len : Int)
    (cells : List PVStructurePtr) (fromOffset : Int) (hwf : WellFormed self)
    (him : self.immutable = false) (hm : self.capacityMutable = false)
    (ho : 0 ≤ offset) (hoc : offset < self.capacity)
    (hsum : self.capacity < offset + len) (hmax : offset + len ≤ INT_MAX) :
    ∃ s0, put self offset len (PVStructurePtrArray.other cells) fromOffset
        = putElements s0 offset (self.capacity - offset) (PVStructurePtrArray.other cells)
            fromOffset ∧
      s0.structureArray = self.structureArray ∧
      s0.postPutCount = self.postPutCount ∧
      s0.capacity = self.capacity ∧
      s0.value = self.value := by
  obtain ⟨hL, hLC, hV⟩ := hwf
  have hw : wrap (offset + len) = offset + len := wrap_eq _ (by unfold INT_MIN; omega) hmax
  have hw1 : wrap (self.capacity - offset) = self.capacity - offset :=
    wrap_eq _ (by unfold INT_MIN; omega) (by omega)
  have hlt : ¬ len < 1 := by omega
  have hg : offset + len > self.length := by omega
  have hnle : ¬ self.capacity - offset ≤ 0 := by omega
  have h1 := setCapacity_not_mutable self (offset + len) hm (by omega)
  refine ⟨setLength (message self "not capacityMutable" MessageType.errorMessage)
    self.capacity, ?_, rfl, rfl, rfl, rfl⟩
  simp only [put, isImmutable, him, sameArray, hlt, getLength, getCapacity, hw, hw1, h1,
    if_false, Bool.false_eq_true, aliases, Bool.false_and]
  simp [hg, hsum, hnle]

/-! ## `put` and `get` at the edge of `int`, `put` from inside the own array -/

/-- When `offset + len` passes the greatest `int` the sum wraps around to a
negative number, so neither the growth nor the clipping of lines 113-122
happens, and the loop writes `value[2147483647]`, outside the allocation. -/
theorem put_window_wraps_undefined :
    wrap (2147483647 + 1) = -2147483648 ∧
    put (sample false false) 2147483647 1 (PVStructurePtrArray.other [some pvC]) 0
      = PutResult.undefined ∧
    put (sample false true) 2147483646 2 (PVStructurePtrArray.other [some pvC, some pvX]) 0
      = PutResult.undefined := by
  decide

/-- In `get` both the sum of line 93 and the difference of line 94 are `int`
operations: `get(-2147483648, -1, _)` on the sample container wraps the sum
to 2147483647, enters the clipping, wraps `2 - -2147483648` to a negative
number and returns 0. -/
theorem get_difference_wraps :
    wrap (-2147483648 + -1) = 2147483647 ∧
    wrap (2 - -2147483648) = -2147483646 ∧
    (get (sample false true) (-2147483648) (-1) { data := [], offset := 0 }).n = 0 := by
  decide

/-- With a wrapped window `put` does not reallocate: on `held`,
`put(1, 2147483647, [pvX], 0)` throws at the first element and slot 1 still
holds `pvB`. -/
theorem put_window_wraps_no_growth :
    put held 1 2147483647 (PVStructurePtrArray.other [some pvX]) 0
      = PutResult.threw held notCompatible ∧
    slot held 1 = some (some pvB) := by
  decide

/-- A source that points into the container's own array, one cell up: the loop
reads the array it writes.  `put(0, 1, value + 1, 0)` on the sample container
copies slot 1 to slot 0; `put(1, 1, value + -1, 1)` reads `value[0]` too. -/
theorem put_from_inside_own_array :
    put (sample false true) 0 1 (PVStructurePtrArray.inside 1) 0
      = PutResult.returned
          { sample false true with value := [some pvB, some pvB], postPutCount := 1 } 1 ∧
    put (sample false true) 1 1 (PVStructurePtrArray.inside (-1)) 1
      = PutResult.returned
          { sample false true with value := [some pvA, some pvA], postPutCount := 1 } 1 ∧
    put (sample false true) 0 1 (PVStructurePtrArray.inside 0) 0
      = PutResult.returned (sample false true) 1 := by
  decide

/-- A source that points into the container's own array dangles after the
growth of line 116 has replaced the array; without a reallocation (capacity
not mutable) the loop reads the live array. -/
theorem put_from_inside_after_growth :
    put { sample false true with capacity := 3, value := [some pvA, some pvB, none] } 1 3
        (PVStructurePtrArray.inside 1) 0
      = PutResult.undefined ∧
    put { sample false false with capacity := 3, value := [some pvA, some pvB, none] } 1 3
        (PVStructurePtrArray.inside 1) 0
      = PutResult.returned
          { sample false false with
            capacity := 3, length := 3, value := [some pvA, some pvB, none],
            messages := [("not capacityMutable", MessageType.errorMessage)],
            postPutCount := 1 } 2 := by
  decide

end epics.pvData

namespace epics.pvData

/-! ## The claims -/

/-- C1 (defect of the code): on a container with mutable capacity `put` grows
the capacity but then clips the write to the capacity read before the growth
(line 117 uses the stale local `capacity`).  On a fresh container
`put(0, 1, [pvA], 0)` returns 0, leaves length 0 and slot 0 absent, with the
capacity grown to 1; on a container of capacity 2 and length 0,
`put(0, 3, [pvA, pvB, pvC], 0)` returns 2 and the length becomes 2, not 3. -/
theorem put_growth_clipped_to_stale_capacity :
    put fresh 0 1 (PVStructurePtrArray.other [some pvA]) 0
      = PutResult.returned { fresh with capacity := 1, value := [none] } 0 ∧
    setCapacity fresh 2 = some { fresh with capacity := 2, value := [none, none] } ∧
    put { fresh with capacity := 2, value := [none, none] } 0 3
        (PVStructurePtrArray.other [some pvA, some pvB, some pvC]) 0
      = PutResult.returned
          { fresh with capacity := 3, length := 2, value := [some pvA, some pvB, none],
                       postPutCount := 1 } 2 := by
  decide

/-- C2 (defect of the code): `shareData` assigns the given sequence and then
calls `setCapacity`, which reallocates whenever the given capacity differs from
the current one and copies only the first `min(L, capacity)` cells.  On a fresh
container `shareData([pvA, pvB], 2, 2)` leaves capacity 2, length 2 and both
slots absent; on a fresh container whose capacity is not mutable the capacity
stays 0. -/
theorem shareData_drops_elements :
    shareData fresh [some pvA, some pvB] 2 2
      = some { fresh with capacity := 2, length := 2, value := [none, none] } ∧
    slot { fresh with capacity := 2, length := 2, value := [none, none] } 0 = some none ∧
    ∃ self1, shareData (BasePVStructureArray.new 7 false false) [some pvA] 1 1 = some self1 ∧
      self1.capacity = 0 := by
  refine ⟨by decide, by decide, _, rfl, by decide⟩

/-- C3: on a well-formed container with `capacityMutable = true`, for every
`newCapacity ≥ 0` different from `C`, `setCapacity(newCapacity)` returns with
capacity `newCapacity`, length `min(L, newCapacity)`, a backing array of
`newCapacity` cells whose slots below `min(L, newCapacity)` hold the elements
they held before and whose slots from `min(L, newCapacity)` up to
`newCapacity - 1` are absent; and `setCapacity(C)` changes nothing. -/
theorem setCapacity_contract (self : BasePVStructureArray) (newCapacity : Int)
    (hwf : WellFormed self) (hm : self.capacityMutable = true) (hn : 0 ≤ newCapacity) :
    (newCapacity ≠ self.capacity →
      ∃ self1, setCapacity self newCapacity = some self1 ∧
        self1.capacity = newCapacity ∧
        self1.length = min self.length newCapacity ∧
        (self1.value.length : Int) = newCapacity ∧
        (∀ i : Int, 0 ≤ i → i < min self.length newCapacity →
          ∃ e, slot self i = some e ∧ slot self1 i = some e) ∧
        (∀ i : Int, min self.length newCapacity ≤ i → i < newCapacity →
          slot self1 i = some none)) ∧
    setCapacity self self.capacity = some self :=
  setCapacity_post self newCapacity hwf hm hn

/-- Witness for C3: growing the sample container from capacity 2 to 3. -/
theorem setCapacity_contract_witness :
    WellFormed (sample false true) ∧
    ∃ self1, setCapacity (sample false true) 3 = some self1 ∧ self1.capacity = 3 ∧
      self1.length = 2 ∧ slot self1 1 = some (some pvB) ∧ slot self1 2 = some none := by
  refine ⟨by decide, ?_⟩
  obtain ⟨self1, h, hc, hl, _, _, _⟩ :=
    (setCapacity_contract (sample false true) 3 (by decide) rfl (by decide)).1 (by decide)
  refine ⟨self1, h, hc, ?_, ?_, ?_⟩
  · rw [hl]; decide
  · have h2 : setCapacity (sample false true) 3
        = some { sample false true with capacity := 3, value := [some pvA, some pvB, none] } := by
      decide
    rw [h2] at h; cases h; decide
  · have h2 : setCapacity (sample false true) 3
        = some { sample false true with capacity := 3, value := [some pvA, some pvB, none] } := by
      decide
    rw [h2] at h; cases h; decide

/-- C4: on a container with `capacityMutable = false`, for every `newCapacity`
different from the current capacity, `setCapacity(newCapacity)` returns
normally, reports the error "not capacityMutable" through the message channel
and leaves capacity, length and every element unchanged. -/
theorem setCapacity_refused (self : BasePVStructureArray) (newCapacity : Int)
    (hm : self.capacityMutable = false) (hne : newCapacity ≠ self.capacity) :
    ∃ self1, setCapacity self newCapacity = some self1 ∧
      self1.messages = self.messages ++ [("not capacityMutable", MessageType.errorMessage)] ∧
      self1.capacity = self.capacity ∧ self1.length = self.length ∧
      self1.value = self.value ∧ self1.postPutCount = self.postPutCount :=
  ⟨_, setCapacity_not_mutable self newCapacity hm hne, rfl, rfl, rfl, rfl, rfl⟩

/-- Witness for C4: the sample container with immutable capacity refuses
capacity 5. -/
theorem setCapacity_refused_witness :
    ∃ self1, setCapacity (sample false false) 5 = some self1 ∧
      self1.messages = [("not capacityMutable", MessageType.errorMessage)] ∧
      self1.capacity = 2 ∧ self1.length = 2 ∧
      self1.value = [some pvA, some pvB] ∧ self1.postPutCount = 0 :=
  setCapacity_refused (sample false false) 5 rfl (by decide)

/-- C5: on a well-formed container with mutable capacity, capacity `C1` and
length `L`, for every `C2 ≥ C1`, `setCapacity(C2)` followed by
`setCapacity(C1)` returns a container with capacity `C1`, length `min(L, C1)`,
whose first `min(L, C1)` slots hold the elements they held before the two
calls. -/
theorem setCapacity_grow_then_shrink (self : BasePVStructureArray) (C2 : Int)
    (hwf : WellFormed self) (hm : self.capacityMutable = true) (hC : self.capacity ≤ C2) :
    ∃ self1 self2, setCapacity self C2 = some self1 ∧
      setCapacity self1 self.capacity = some self2 ∧
      self2.capacity = self.capacity ∧
      self2.length = min self.length self.capacity ∧
      ∀ i : Int, 0 ≤ i → i < min self.length self.capacity →
        ∃ e, slot self i = some e ∧ slot self2 i = some e := by
  have hwf0 := hwf
  obtain ⟨hL, hLC, hV⟩ := hwf
  by_cases heq : C2 = self.capacity
  · subst heq
    have h0 : setCapacity self self.capacity = some self := by simp [setCapacity, getCapacity]
    refine ⟨self, self, h0, h0, rfl, by omega, ?_⟩
    intro i hi0 hi
    have hiv : i.toNat < self.value.length := by omega
    exact ⟨self.value[i.toNat], by simp [slot, readAt, hi0, List.getElem?_eq_getElem hiv],
      by simp [slot, readAt, hi0, List.getElem?_eq_getElem hiv]⟩
  · obtain ⟨self1, h1, c1, l1, v1, e1, _⟩ :=
      (setCapacity_post self C2 hwf0 hm (by omega)).1 heq
    have hm1 : self1.capacityMutable = true := by
      rw [(setCapacity_some self self1 C2 h1).2.2.1]; exact hm
    have hwf1 : WellFormed self1 := ⟨by omega, by omega, by omega⟩
    obtain ⟨self2, h2, c2, l2, _, e2, _⟩ :=
      (setCapacity_post self1 self.capacity hwf1 hm1 (by omega)).1 (by omega)
    refine ⟨self1, self2, h1, h2, c2, by omega, ?_⟩
    intro i hi0 hi
    obtain ⟨e, he, he1⟩ := e1 i hi0 (by omega)
    obtain ⟨e', he1', he2⟩ := e2 i hi0 (by omega)
    rw [he1] at he1'
    cases he1'
    exact ⟨e, he, he2⟩

/-- Witness for C5: the sample container grown to capacity 4 and shrunk back
to 2 still holds `pvA` in slot 0. -/
theorem setCapacity_grow_then_shrink_witness :
    WellFormed (sample false true) ∧
    ∃ self1 self2, setCapacity (sample false true) 4 = some self1 ∧
      setCapacity self1 2 = some self2 ∧ self2.capacity = 2 ∧ self2.length = 2 := by
  refine ⟨by decide, ?_⟩
  obtain ⟨self1, self2, h1, h2, c2, l2, _⟩ :=
    setCapacity_grow_then_shrink (sample false true) 4 (by decide) rfl (by decide)
  exact ⟨self1, self2, h1, h2, c2, by rw [l2]; decide⟩

/-- C6: `0 ≤ L ≤ C` holds for a freshly constructed container, is preserved by
every `setCapacity` call with a non-negative capacity and by every `put` call
whatever its arguments, wherever its source points and however it ends (normal
return, reported error, thrown type mismatch, also when `offset + len` passes
the greatest `int`); moreover on a well-formed container `setCapacity` with a
non-negative capacity is defined, and so is `put` from its own array, and from
another array that covers the requested window, at offsets that are not
negative and with windows that end at or below the greatest `int`. -/
theorem length_le_capacity_invariant :
    (∀ (d : StructureConstPtr) (im cm : Bool), LengthInv (BasePVStructureArray.new d im cm)) ∧
    (∀ (self self1 : BasePVStructureArray) (n : Int),
      LengthInv self → 0 ≤ n → setCapacity self n = some self1 → LengthInv self1) ∧
    (∀ (self self1 : BasePVStructureArray) (offset len : Int) (src : PVStructurePtrArray)
      (fromOffset : Int),
      LengthInv self → (put self offset len src fromOffset).after = some self1 →
      LengthInv self1) ∧
    (∀ (self : BasePVStructureArray) (n : Int),
      WellFormed self → 0 ≤ n → ∃ self1, setCapacity self n = some self1) ∧
    (∀ (self : BasePVStructureArray) (offset len fromOffset : Int),
      ∃ self1, (put self offset len PVStructurePtrArray.own fromOffset).after = some self1) ∧
    (∀ (self : BasePVStructureArray) (offset len : Int) (cells : List PVStructurePtr)
      (fromOffset : Int),
      WellFormed self → 0 ≤ offset → 0 ≤ fromOffset →
      fromOffset + len ≤ (cells.length : Int) →
      offset + len ≤ INT_MAX → fromOffset + len ≤ INT_MAX →
      ∃ self1, (put self offset len (PVStructurePtrArray.other cells) fromOffset).after
        = some self1) := by
  refine ⟨?_, ?_, ?_, ?_, ?_, ?_⟩
  · intro d im cm
    exact ⟨le_refl _, le_refl _⟩
  · intro self self1 n hinv hn h
    obtain ⟨hL, hLC⟩ := hinv
    obtain ⟨_, _, _, _, hcases⟩ := setCapacity_some self self1 n h
    rcases hcases with ⟨c, l, _⟩ | ⟨_, c, l, _⟩
    · exact ⟨by omega, by omega⟩
    · exact ⟨by omega, by omega⟩
  · intro self self1 offset len src fromOffset hinv h
    exact put_lengthInv self self1 offset len src fromOffset hinv h
  · intro self n hwf hn
    obtain ⟨self1, h, _⟩ := setCapacity_defined self n hwf hn
    exact ⟨self1, h⟩
  · intro self offset len fromOffset
    unfold put
    split
    · exact ⟨_, rfl⟩
    · exact ⟨self, by simp [sameArray, PutResult.after]⟩
  · intro self offset len cells fromOffset hwf ho hf hs hso hsf
    exact put_defined self offset len cells fromOffset hwf ho hf hs hso hsf

/-- Witness for C6: the invariant after a `put` on the sample container that
throws at its second element. -/
theorem length_le_capacity_invariant_witness :
    LengthInv (sample false true) ∧
    (put (sample false true) 0 2 (PVStructurePtrArray.other [some pvC, some pvX]) 0).after
      = some { sample false true with value := [some pvC, some pvB] } ∧
    LengthInv { sample false true with value := [some pvC, some pvB] } := by
  have h : (put (sample false true) 0 2
      (PVStructurePtrArray.other [some pvC, some pvX]) 0).after
      = some { sample false true with value := [some pvC, some pvB] } := by decide
  exact ⟨by decide, h, length_le_capacity_invariant.2.2.1 _ _ 0 2 _ 0 (by decide) h⟩

/-- C7 as stated fails: on an immutable container `put` from its own backing
array returns 0 and reports "field is immutable", it does not return `len`. -/
theorem put_own_source_immutable_counterexample :
    put (sample true true) 0 1 PVStructurePtrArray.own 0
      = PutResult.returned
          (message (sample true true) "field is immutable" MessageType.errorMessage) 0 ∧
    put (sample true true) 0 1 PVStructurePtrArray.own 0
      ≠ PutResult.returned (sample true true) 1 := by
  decide

/-- C7, amended: on every container that is not immutable, for every offset,
every `len` and every source offset, `put` from the container's own backing
array returns `len` and leaves the whole container unchanged. -/
theorem put_own_source (self : BasePVStructureArray) (offset len fromOffset : Int)
    (him : self.immutable = false) :
    put self offset len PVStructurePtrArray.own fromOffset = PutResult.returned self len := by
  simp [put, isImmutable, him, sameArray]

/-- Witness for C7: the sample container, `put(1, 5, own, 1)`. -/
theorem put_own_source_witness :
    put (sample false true) 1 5 PVStructurePtrArray.own 1
      = PutResult.returned (sample false true) 5 :=
  put_own_source (sample false true) 1 5 1 rfl

/-- C8: on an immutable container every `put` returns 0 normally, reports
"field is immutable" through the message channel, raises no value-changed
notification and leaves capacity, length and all elements unchanged. -/
theorem put_immutable (self : BasePVStructureArray) (offset len : Int)
    (src : PVStructurePtrArray) (fromOffset : Int) (him : self.immutable = true) :
    ∃ self1, put self offset len src fromOffset = PutResult.returned self1 0 ∧
      self1.messages = self.messages ++ [("field is immutable", MessageType.errorMessage)] ∧
      self1.postPutCount = self.postPutCount ∧
      self1.capacity = self.capacity ∧ self1.length = self.length ∧
      self1.value = self.value := by
  refine ⟨message self "field is immutable" MessageType.errorMessage, ?_, rfl, rfl, rfl,
    rfl, rfl⟩
  simp [put, isImmutable, him]

/-- Witness for C8: the immutable sample container, `put(0, 1, [pvC], 0)`. -/
theorem put_immutable_witness :
    ∃ self1, put (sample true true) 0 1 (PVStructurePtrArray.other [some pvC]) 0
        = PutResult.returned self1 0 ∧
      self1.messages = [("field is immutable", MessageType.errorMessage)] ∧
      self1.postPutCount = 0 ∧ self1.capacity = 2 ∧ self1.length = 2 ∧
      self1.value = [some pvA, some pvB] :=
  put_immutable (sample true true) 0 1 (PVStructurePtrArray.other [some pvC]) 0 rfl

/-- C9 as stated fails: with the container's own backing array as source, a
`put` of length -1 returns -1, not 0 (the test of line 109 comes before the
test of line 110). -/
theorem put_own_source_negative_length_counterexample :
    put (sample false true) 0 (-1) PVStructurePtrArray.own 0
      = PutResult.returned (sample false true) (-1) ∧
    put (sample false true) 0 (-1) PVStructurePtrArray.own 0
      ≠ PutResult.returned (sample false true) 0 := by
  decide

/-- C9, amended: on a container that is not immutable, for a source that is
not the container's own backing array (`from != value`), when the usable
length is non-positive (`len < 1`, or, on a container with `0 ≤ L ≤ C` whose
capacity is not mutable, a window that starts at or past the capacity and ends
at or below the greatest `int`, so that nothing is left once it is clipped to
the capacity), `put` returns 0 and the capacity, the length, the elements and
the notification count are unchanged. -/
theorem put_nothing_writable (self : BasePVStructureArray) (offset len : Int)
    (src : PVStructurePtrArray) (fromOffset : Int)
    (him : self.immutable = false) (hsrc : sameArray src = false)
    (hno : len < 1 ∨ (self.capacityMutable = false ∧ LengthInv self ∧
      self.capacity ≤ offset ∧ offset + len ≤ INT_MAX)) :
    ∃ self1, put self offset len src fromOffset = PutResult.returned self1 0 ∧
      self1.capacity = self.capacity ∧ self1.length = self.length ∧
      self1.value = self.value ∧ self1.postPutCount = self.postPutCount := by
  by_cases hlen : len < 1
  · exact ⟨self, by simp [put, isImmutable, him, hsrc, hlen], rfl, rfl, rfl, rfl⟩
  · rcases hno with h | ⟨hm, ⟨hL, hLC⟩, hoc, hmax⟩
    · exact absurd h hlen
    · have hw : wrap (offset + len) = offset + len :=
        wrap_eq _ (by unfold INT_MIN; omega) hmax
      have hw1 : wrap (self.capacity - offset) = self.capacity - offset :=
        wrap_eq _ (by unfold INT_MIN; unfold INT_MAX at hmax; omega)
          (by unfold INT_MAX; omega)
      have h1 := setCapacity_not_mutable self (offset + len) hm (by omega)
      have hg : offset + len > self.length := by omega
      have hc : offset + len > self.capacity := by omega
      have hle : self.capacity - offset ≤ 0 := by omega
      refine ⟨message self "not capacityMutable" MessageType.errorMessage, ?_, rfl, rfl,
        rfl, rfl⟩
      simp only [put, isImmutable, him, hsrc, hlen, getLength, getCapacity, hw, hw1, h1,
        if_false, Bool.false_eq_true]
      simp [hg, hc, hle]

/-- Witness for C9: the full sample container with immutable capacity,
`put(2, 1, [pvC], 0)`. -/
theorem put_nothing_writable_witness :
    (sample false false).capacity ≤ 2 ∧
    ∃ self1, put (sample false false) 2 1 (PVStructurePtrArray.other [some pvC]) 0
        = PutResult.returned self1 0 ∧
      self1.capacity = 2 ∧ self1.length = 2 ∧ self1.value = [some pvA, some pvB] ∧
      self1.postPutCount = 0 :=
  ⟨by decide,
    put_nothing_writable (sample false false) 2 1 (PVStructurePtrArray.other [some pvC]) 0
      rfl rfl (Or.inr ⟨rfl, by decide, by decide, by decide⟩)⟩

/-- C10 as stated fails: on the container `held` (capacity 2, length 0, slots
`pvA`, `pvB`; reached from a fresh container by `setCapacity(2)` and
`shareData([pvA, pvB], 2, 0)`), `put(0, 3, [pvX, null, null], 0)` throws at the
first element (k = 0), yet slot 0, which held `pvA` before the call, is absent
after it: the growth of line 116 reallocated and kept only the cells below the
old length. -/
theorem put_type_mismatch_counterexample :
    setCapacity fresh 2 = some { fresh with capacity := 2, value := [none, none] } ∧
    shareData { fresh with capacity := 2, value := [none, none] } [some pvA, some pvB] 2 0
      = some held ∧
    put held 0 3 (PVStructurePtrArray.other [some pvX, none, none]) 0
      = PutResult.threw
          { fresh with capacity := 3, length := 2, value := [none, none, none] }
          notCompatible ∧
    slot held 0 = some (some pvA) ∧
    slot { fresh with capacity := 3, length := 2, value := [none, none, none] } 0
      = some none := by
  decide

/-- C10, amended: on a well-formed container that is not immutable, for a
source array that is not part of the container's own backing array, at an
offset that is not negative, when the call does not reallocate the backing array (the
window ends inside the capacity, or the capacity is not mutable and the window
is clipped to it), no index passes the greatest `int`, and the window the loop
runs over contains an element of a foreign descriptor, `k` being the index of
the first one: `put` throws "Element is not a compatible structure", raises no
value-changed notification, slots `offset .. offset+k-1` hold the
corresponding source elements, and every slot from `offset+k` on holds what it
held before the call. -/
theorem put_type_mismatch (self : BasePVStructureArray) (offset len : Int)
    (cells : List PVStructurePtr) (fromOffset : Int) (k : Nat)
    (hwf : WellFormed self) (him : self.immutable = false)
    (ho : 0 ≤ offset) (hmax : offset + len ≤ INT_MAX) (hfk : fromOffset + k ≤ INT_MAX)
    (hwin : (offset + len ≤ self.capacity ∧ (k : Int) < len) ∨
      (self.capacityMutable = false ∧ self.capacity < offset + len ∧
        offset + k < self.capacity))
    (hok : ∀ i : Nat, i < k → ∃ e, readAt cells (i + fromOffset) = some e ∧
      ∀ pv, e = some pv → pv.getStructure = self.structureArray)
    (hbad : ∃ pv, readAt cells (k + fromOffset) = some (some pv) ∧
      pv.getStructure ≠ self.structureArray) :
    ∃ self1, put self offset len (PVStructurePtrArray.other cells) fromOffset
        = PutResult.threw self1 notCompatible ∧
      self1.postPutCount = self.postPutCount ∧
      self1.capacity = self.capacity ∧
      (∀ i : Nat, i < k → slot self1 (offset + i) = readAt cells (i + fromOffset)) ∧
      (∀ j : Int, offset + k ≤ j → slot self1 j = slot self j) := by
  have hV := hwf.2.2
  have tail : ∀ (s0 : BasePVStructureArray) (n : Int),
      put self offset len (PVStructurePtrArray.other cells) fromOffset
        = putElements s0 offset n (PVStructurePtrArray.other cells) fromOffset →
      s0.structureArray = self.structureArray → s0.postPutCount = self.postPutCount →
      s0.capacity = self.capacity → s0.value = self.value →
      (k : Int) < n → offset + n ≤ self.capacity → offset + n ≤ INT_MAX →
      ∃ self1, put self offset len (PVStructurePtrArray.other cells) fromOffset
          = PutResult.threw self1 notCompatible ∧
        self1.postPutCount = self.postPutCount ∧
        self1.capacity = self.capacity ∧
        (∀ i : Nat, i < k → slot self1 (offset + i) = readAt cells (i + fromOffset)) ∧
        (∀ j : Int, offset + k ≤ j → slot self1 j = slot self j) := by
    intro s0 n hput hst hpc hcap hv hkn hnc hnm
    obtain ⟨v1, hthrew, _, g1⟩ := putElements_threw s0 offset n cells fromOffset k hkn
      (by rw [hst]; exact hok) (by rw [hst]; exact hbad) ho (by rw [hv]; omega) hnm hfk
    refine ⟨{ s0 with value := v1 }, by rw [hput, hthrew], hpc, hcap, ?_, ?_⟩
    · intro i hi
      show readAt v1 (offset + i) = _
      rw [g1, if_pos ⟨by omega, by omega⟩]
      congr 1; ring
    · intro j hj
      show readAt v1 j = readAt self.value j
      rw [g1, if_neg (by omega), hv]
  rcases hwin with ⟨hc, hkl⟩ | ⟨hm, hc, hkc⟩
  · obtain ⟨s0, hput, hst, hpc, hcap, hv⟩ :=
      put_within_capacity self offset len cells fromOffset him ho (by omega) hc hmax
    exact tail s0 len hput hst hpc hcap hv hkl hc hmax
  · obtain ⟨s0, hput, hst, hpc, hcap, hv⟩ :=
      put_clipped self offset len cells fromOffset hwf him hm ho (by omega) hc hmax
    exact tail s0 (self.capacity - offset) hput hst hpc hcap hv (by omega) (by omega)
      (by omega)

/-- Witness for C10: on the sample container `put(0, 2, [pvC, pvX], 0)` throws
at k = 1 with slot 0 holding `pvC` and slot 1 still holding `pvB`. -/
theorem put_type_mismatch_witness :
    WellFormed (sample false true) ∧
    ∃ self1, put (sample false true) 0 2 (PVStructurePtrArray.other [some pvC, some pvX]) 0
        = PutResult.threw self1 notCompatible ∧
      self1.postPutCount = 0 ∧
      slot self1 0 = some (some pvC) ∧
      slot self1 1 = some (some pvB) := by
  refine ⟨by decide, ?_⟩
  obtain ⟨self1, h, hp, _, hs, hk⟩ :=
    put_type_mismatch (sample false true) 0 2 [some pvC, some pvX] 0 1 (by decide) rfl
      (by decide) (by decide) (by decide)
      (Or.inl ⟨by decide, by decide⟩)
      (by
        intro i hi
        obtain rfl : i = 0 := by omega
        exact ⟨some pvC, by decide, by intro pv hpv; cases hpv; rfl⟩)
      ⟨pvX, by decide, by decide⟩
  refine ⟨self1, h, hp, ?_, ?_⟩
  · have := hs 0 (by omega)
    simpa using this
  · have := hk 1 (by decide)
    rw [this]; decide

/-! ## Type homogeneity -/

theorem writeAt_all (P : PVStructurePtr → Prop) (a b : List PVStructurePtr) (i : Int)
    (v : PVStructurePtr) (h : writeAt a i v = some b) (ha : ∀ e ∈ a, P e) (hv : P v) :
    ∀ e ∈ b, P e := by
  unfold writeAt at h
  split at h
  · cases h
    intro e he
    rcases List.mem_or_eq_of_mem_set he with h1 | h1
    · exact ha e h1
    · rw [h1]; exact hv
  · cases h

theorem readAt_mem (a : List PVStructurePtr) (i : Int) (v : PVStructurePtr)
    (h : readAt a i = some v) : v ∈ a := by
  unfold readAt at h
  split at h
  · exact List.getElem?_mem h
  · cases h

theorem copyLoop_all (P : PVStructurePtr → Prop) (value : List PVStructurePtr)
    (hval : ∀ e ∈ value, P e) :
    ∀ (k : Nat) (i : Int) (nv r : List PVStructurePtr),
      copyLoop value k i nv = some r → (∀ e ∈ nv, P e) → ∀ e ∈ r, P e := by
  intro k
  induction k with
  | zero => intro i nv r h hnv; cases h; exact hnv
  | succ k ih =>
    intro i nv r h hnv
    unfold copyLoop at h
    split at h
    · cases h
    · rename_i v hr
      split at h
      · cases h
      · rename_i nv1 hw
        exact ih _ _ _ h (writeAt_all P _ _ _ _ hw hnv (hval v (readAt_mem _ _ _ hr)))

theorem fillLoop_all (P : PVStructurePtr → Prop) (hnone : P none) :
    ∀ (k : Nat) (i : Int) (nv r : List PVStructurePtr),
      fillLoop k i nv = some r → (∀ e ∈ nv, P e) → ∀ e ∈ r, P e := by
  intro k
  induction k with
  | zero => intro i nv r h hnv; cases h; exact hnv
  | succ k ih =>
    intro i nv r h hnv
    unfold fillLoop at h
    split at h
    · cases h
    · rename_i nv1 hw
      exact ih _ _ _ h (writeAt_all P _ _ _ _ hw hnv hnone)

/-- A `setCapacity` call that returns keeps the declared descriptor, and every
cell of the new backing array is a cell of the old one or null. -/
theorem setCapacity_all (P : PVStructurePtr → Prop) (hnone : P none)
    (self self1 : BasePVStructureArray) (n : Int)
    (h : setCapacity self n = some self1) (hval : ∀ e ∈ self.value, P e) :
    ∀ e ∈ self1.value, P e := by
  unfold setCapacity at h
  split at h
  · cases h; exact hval
  · split at h
    · cases h; exact hval
    · simp only [getLength] at h
      split at h
      · cases h
      · split at h
        · cases h
        · rename_i r1 h1
          split at h
          · cases h
          · rename_i r2 h2
            cases h
            simp only [setCapacityLength]
            refine fillLoop_all P hnone _ _ _ _ h2 ?_
            refine copyLoop_all P _ hval _ _ _ _ h1 ?_
            intro e he
            rw [List.eq_of_mem_replicate he]
            exact hnone

/-- The element loop stores only null and structures of the declared
descriptor: a property of cells that holds for those and for every cell of the
backing array holds for every cell after the loop. -/
theorem putLoop_all (P : PVStructurePtr → Prop) (st : StructureConstPtr)
    (hP : ∀ e, Compatible st e → P e) (src : PVStructurePtrArray)
    (fromOffset offset : Int) :
    ∀ (n : Nat) (i : Int) (value v1 : List PVStructurePtr),
      (putLoop st src fromOffset offset n i value = LoopResult.done v1 ∨
        putLoop st src fromOffset offset n i value = LoopResult.threw v1) →
      (∀ e ∈ value, P e) → ∀ e ∈ v1, P e := by
  intro n
  induction n with
  | zero =>
    intro i value v1 h hval
    rcases h with h | h
    · simp only [putLoop] at h; cases h; exact hval
    · simp only [putLoop] at h; cases h
  | succ n ih =>
    intro i value v1 h hval
    unfold putLoop at h
    split at h
    · rcases h with h | h <;> cases h
    · split at h
      · rcases h with h | h <;> cases h
      · rename_i value1 hw
        exact ih _ _ _ h (writeAt_all _ _ _ _ _ hw hval (hP none trivial))
    · rename_i frompv hr
      split at h
      · rcases h with h | h
        · cases h
        · cases h; exact hval
      · rename_i hst
        split at h
        · rcases h with h | h <;> cases h
        · rename_i value1 hw
          refine ih _ _ _ h (writeAt_all _ _ _ _ _ hw hval (hP (some frompv) ?_))
          simp only [ne_eq, not_not] at hst
          exact hst

theorem putElements_all (P : PVStructurePtr → Prop) (self self1 : BasePVStructureArray)
    (offset len : Int) (src : PVStructurePtrArray) (fromOffset : Int)
    (hP : ∀ e, Compatible self.structureArray e → P e) (hall : ∀ e ∈ self.value, P e)
    (h : (putElements self offset len src fromOffset).after = some self1) :
    self1.structureArray = self.structureArray ∧ ∀ e ∈ self1.value, P e := by
  unfold putElements at h
  split at h
  · cases h
  · rename_i v1 hl
    simp only [PutResult.after, Option.some.injEq] at h
    subst h
    exact ⟨rfl, putLoop_all P _ hP _ _ _ _ _ _ _ (Or.inr hl) hall⟩
  · rename_i v1 hl
    simp only [PutResult.after, Option.some.injEq] at h
    subst h
    exact ⟨rfl, putLoop_all P _ hP _ _ _ _ _ _ _ (Or.inl hl) hall⟩

theorem setCapacity_homogeneous (self self1 : BasePVStructureArray) (n : Int)
    (hh : Homogeneous self) (h : setCapacity self n = some self1) : Homogeneous self1 := by
  have hst := (setCapacity_some self self1 n h).1
  unfold Homogeneous
  rw [hst]
  exact setCapacity_all (Compatible self.structureArray) trivial self self1 n h hh

/-- Every `put` call that returns or throws keeps the declared descriptor and
stores only null and structures of that descriptor. -/
theorem put_all (P : PVStructurePtr → Prop) (self self1 : BasePVStructureArray)
    (offset len : Int) (src : PVStructurePtrArray) (fromOffset : Int)
    (hP : ∀ e, Compatible self.structureArray e → P e) (hall : ∀ e ∈ self.value, P e)
    (h : (put self offset len src fromOffset).after = some self1) :
    self1.structureArray = self.structureArray ∧ ∀ e ∈ self1.value, P e := by
  unfold put at h
  split at h
  · simp only [PutResult.after, Option.some.injEq] at h
    subst h; exact ⟨rfl, hall⟩
  · split at h
    · simp only [PutResult.after, Option.some.injEq] at h
      subst h; exact ⟨rfl, hall⟩
    · split at h
      · simp only [PutResult.after, Option.some.injEq] at h
        subst h; exact ⟨rfl, hall⟩
      · simp only [getLength, getCapacity] at h
        split at h
        · split at h
          · split at h
            · cases h
            · rename_i s1 hs1
              have hst := (setCapacity_some self s1 _ hs1).1
              have hall1 := setCapacity_all P (hP none trivial) self s1 _ hs1 hall
              split at h
              · simp only [PutResult.after, Option.some.injEq] at h
                subst h; exact ⟨hst, hall1⟩
              · split at h
                · cases h
                · obtain ⟨h1, h2⟩ := putElements_all P (setLength s1 self.capacity) self1
                    _ _ _ _ (by simp only [setLength]; rw [hst]; exact hP) hall1 h
                  exact ⟨by rw [h1]; exact hst, h2⟩
          · exact putElements_all P (setLength self (wrap (offset + len))) self1 _ _ _ _
              hP hall h
        · exact putElements_all P self self1 _ _ _ _ hP hall h

theorem put_homogeneous (self self1 : BasePVStructureArray) (offset len : Int)
    (src : PVStructurePtrArray) (fromOffset : Int) (hh : Homogeneous self)
    (h : (put self offset len src fromOffset).after = some self1) : Homogeneous self1 := by
  obtain ⟨h1, h2⟩ := put_all (Compatible self.structureArray) self self1 offset len src
    fromOffset (fun _ he => he) hh h
  unfold Homogeneous
  rw [h1]
  exact h2

/-! ## The claims on homogeneity and `get` -/

/-- C11 as stated fails: `shareData` stores what it is given without looking
at the descriptors.  On a homogeneous container of capacity 1,
`shareData([pvX], 1, 1)` with `pvX` of descriptor 8 (declared: 7) returns
normally and slot 0 holds `pvX`: the container is no longer homogeneous. -/
theorem shareData_breaks_homogeneity_counterexample :
    setCapacity fresh 1 = some { fresh with capacity := 1, value := [none] } ∧
    Homogeneous { fresh with capacity := 1, value := [none] } ∧
    shareData { fresh with capacity := 1, value := [none] } [some pvX] 1 1
      = some { fresh with capacity := 1, length := 1, value := [some pvX] } ∧
    ¬ Homogeneous { fresh with capacity := 1, length := 1, value := [some pvX] } := by
  decide

/-- C11, amended: type homogeneity is preserved by every `setCapacity` call and
by every `put` call that returns or throws, whatever its arguments and
wherever its source points; `put` never stores a structure of another
descriptor (after a `put`, every cell of the backing array is absent, holds a
structure of the declared descriptor, or is a cell the array had before the
call); `shareData` checks nothing, and homogeneity holds after it whenever
every non-absent element of the adopted sequence has the declared
descriptor. -/
theorem homogeneity_invariant :
    (∀ (self self1 : BasePVStructureArray) (n : Int),
      Homogeneous self → setCapacity self n = some self1 → Homogeneous self1) ∧
    (∀ (self self1 : BasePVStructureArray) (offset len : Int) (src : PVStructurePtrArray)
      (fromOffset : Int),
      Homogeneous self → (put self offset len src fromOffset).after = some self1 →
      Homogeneous self1) ∧
    (∀ (self self1 : BasePVStructureArray) (offset len : Int) (src : PVStructurePtrArray)
      (fromOffset : Int),
      (put self offset len src fromOffset).after = some self1 →
      self1.structureArray = self.structureArray ∧
      ∀ e ∈ self1.value, Compatible self.structureArray e ∨ e ∈ self.value) ∧
    (∀ (self self1 : BasePVStructureArray) (value : List PVStructurePtr)
      (capacity length : Int),
      (∀ e ∈ value, Compatible self.structureArray e) →
      shareData self value capacity length = some self1 → Homogeneous self1) := by
  refine ⟨?_, ?_, ?_, ?_⟩
  · intro self self1 n hh h
    exact setCapacity_homogeneous self self1 n hh h
  · intro self self1 offset len src fromOffset hh h
    exact put_homogeneous self self1 offset len src fromOffset hh h
  · intro self self1 offset len src fromOffset h
    exact put_all (fun e => Compatible self.structureArray e ∨ e ∈ self.value) self self1
      offset len src fromOffset (fun _ he => Or.inl he) (fun _ he => Or.inr he) h
  · intro self self1 value capacity length hv h
    unfold shareData at h
    split at h
    · cases h
    · rename_i s1 hs1
      cases h
      exact setCapacity_homogeneous { self with value := value } s1 capacity hv hs1

/-- Witness for C11: a `put` on the sample container that throws at a foreign
element leaves it homogeneous. -/
theorem homogeneity_invariant_witness :
    Homogeneous (sample false true) ∧
    (put (sample false true) 0 2 (PVStructurePtrArray.other [some pvC, some pvX]) 0).after
      = some { sample false true with value := [some pvC, some pvB] } ∧
    Homogeneous { sample false true with value := [some pvC, some pvB] } := by
  have h : (put (sample false true) 0 2
      (PVStructurePtrArray.other [some pvC, some pvX]) 0).after
      = some { sample false true with value := [some pvC, some pvB] } := by decide
  exact ⟨by decide, h, homogeneity_invariant.2.1 _ _ 0 2 _ 0 (by decide) h⟩

/-- C12 as stated fails: a C++ `int` has 32 bits, and line 93 adds `offset` and
`len` before it compares.  On the sample container (length 2),
`get(2147483647, 1, _)` returns 1, not `min(1, max(0, 2 - 2147483647)) = 0`:
the sum wraps around to a negative number, the clipping is skipped, and the
view starts far beyond the length. -/
theorem get_offset_overflow_counterexample :
    (0 : Int) ≤ 2147483647 ∧ (0 : Int) ≤ 1 ∧
    (get (sample false true) 2147483647 1 { data := [], offset := 0 }).n = 1 ∧
    min (1 : Int) (max 0 ((sample false true).length - 2147483647)) = 0 ∧
    (get (sample false true) 2147483647 1 { data := [], offset := 0 }).n
      ≠ min (1 : Int) (max 0 ((sample false true).length - 2147483647)) := by
  decide

/-- C12, amended: for every container whose length `L` is an `int` that is not
negative, every `offset ≥ 0` and every `len ≥ 0` with `offset + len` at or
below the greatest `int`, `get(offset, len, data)` returns
`min(len, max(0, L - offset))`, sets the view to the backing array of the
container and `offset`, and leaves the container unchanged. -/
theorem get_contract (self : BasePVStructureArray) (offset len : Int)
    (data : StructureArrayData) (ho : 0 ≤ offset) (hl : 0 ≤ len)
    (hmax : offset + len ≤ INT_MAX) (hL : 0 ≤ self.length) (hLmax : self.length ≤ INT_MAX) :
    (get self offset len data).n = min len (max 0 (self.length - offset)) ∧
    (get self offset len data).data = { data := self.value, offset := offset } ∧
    (get self offset len data).self = self := by
  refine ⟨?_, rfl, rfl⟩
  have hw : wrap (offset + len) = offset + len := wrap_eq _ (by unfold INT_MIN; omega) hmax
  have hw1 : wrap (self.length - offset) = self.length - offset :=
    wrap_eq _ (by unfold INT_MIN; unfold INT_MAX at hmax; omega) (by omega)
  simp only [get, getLength, hw, hw1]
  split
  · split <;> omega
  · omega

/-- Witness for C12: on the sample container (length 2), `get(1, 5, _)` returns
1 and `get(3, 5, _)` returns 0. -/
theorem get_contract_witness :
    (get (sample false true) 1 5 { data := [], offset := 0 }).n = 1 ∧
    (get (sample false true) 3 5 { data := [], offset := 0 }).n = 0 := by
  have h1 := (get_contract (sample false true) 1 5 { data := [], offset := 0 }
    (by decide) (by decide) (by decide) (by decide) (by decide)).1
  have h2 := (get_contract (sample false true) 3 5 { data := [], offset := 0 }
    (by decide) (by decide) (by decide) (by decide) (by decide)).1
  exact ⟨by rw [h1]; decide, by rw [h2]; decide⟩

/-! ## The callbacks, one step at a time -/

theorem run_cons (lib : Library) (self self1 : context) (e : Event) (es : List Event)
    (h : callback lib self e = Callback.returned self1 1) :
    run lib self (e :: es) = run lib self1 es := by
  simp [run, h]

theorem run_cons_abort (lib : Library) (self self1 : context) (e : Event) (es : List Event)
    (h : callback lib self e = Callback.returned self1 0) :
    run lib self (e :: es) = Callback.returned self1 0 := by
  simp [run, h]

theorem start_map_structure (msg : String) (back : frame) (rest : List frame)
    (heap : List PVField) (bitSet : Finset Nat) (offset : Nat) (fullName : String)
    (fields : List (String × Addr))
    (h : heap[back.fld]? = some ⟨offset, fullName, PVData.structure fields⟩) :
    jtree_start_map ⟨msg, back :: rest, heap, bitSet⟩
      = Callback.returned ⟨msg, back :: rest, heap, bitSet⟩ 1 := by
  simp [jtree_start_map, TRY, CATCH, h]

theorem map_key_found (lib : Library) (msg : String) (back : frame) (rest : List frame)
    (heap : List PVField) (bitSet : Finset Nat) (offset : Nat) (fullName : String)
    (fields : List (String × Addr)) (name : String) (a : Addr)
    (h : heap[back.fld]? = some ⟨offset, fullName, PVData.structure fields⟩)
    (ha : getSubField fields name = some a) :
    jtree_map_key lib ⟨msg, back :: rest, heap, bitSet⟩ name
      = Callback.returned ⟨msg, ⟨a, back.assigned⟩ :: back :: rest, heap, bitSet⟩ 1 := by
  simp [jtree_map_key, TRY, CATCH, h, ha]

theorem map_key_missing (lib : Library) (msg : String) (back : frame) (rest : List frame)
    (heap : List PVField) (bitSet : Finset Nat) (offset : Nat) (fullName : String)
    (fields : List (String × Addr)) (name : String)
    (h : heap[back.fld]? = some ⟨offset, fullName, PVData.structure fields⟩)
    (ha : getSubField fields name = none) :
    jtree_map_key lib ⟨msg, back :: rest, heap, bitSet⟩ name
      = Callback.returned
          ⟨if msg = "" then "At " ++ fullName ++ " : " ++ lib.getSubFieldError name ++ "\n"
            else msg, back :: rest, heap, bitSet⟩ 0 := by
  by_cases hm : msg = "" <;> simp [jtree_map_key, TRY, CATCH, h, ha, hm]

/-- C14: in every engine state with a non-empty cursor stack the null-literal
callback returns 0, sets the error message to "NULL value not permitted" and
leaves the cursor stack, every value node and the change set unchanged; and
the events of `{"x": null}`, fed into any target structure, abort the parse
with a non-empty error message (`parseJSON` throws it) while every value node
and the change set are as before. -/
theorem null_rejected :
    (∀ self : context, self.stack ≠ [] →
      jtree_null self
        = Callback.returned { self with msg := "NULL value not permitted" } 0) ∧
    (∀ (lib : Library) (heap : List PVField) (root : Addr) (assigned : Bool)
      (bitSet : Finset Nat) (offset : Nat) (fullName : String)
      (fields : List (String × Addr)),
      heap[root]? = some ⟨offset, fullName, PVData.structure fields⟩ →
      ∃ c : context,
        run lib (context.new heap root assigned bitSet)
            (events (JSON.object [("x", JSON.null)])) = Callback.returned c 0 ∧
        c.msg ≠ "" ∧ c.heap = heap ∧ c.bitSet = bitSet ∧
        parseJSON lib heap root assigned bitSet (events (JSON.object [("x", JSON.null)]))
          = ParseResult.runtime_error c.msg) := by
  refine ⟨?_, ?_⟩
  · intro self h
    simp [jtree_null, TRY, CATCH, h]
  · intro lib heap root assigned bitSet offset fullName fields hroot
    have hev : events (JSON.object [("x", JSON.null)])
        = [Event.start_map, Event.map_key "x", Event.null, Event.end_map] := by
      simp [events, eventsOfMembers]
    have h1 := start_map_structure "" ⟨root, assigned⟩ [] heap bitSet offset fullName fields hroot
    cases hx : getSubField fields "x" with
    | none =>
      have h2 := map_key_missing lib "" ⟨root, assigned⟩ [] heap bitSet offset fullName
        fields "x" hroot hx
      have hrun : run lib (context.new heap root assigned bitSet)
          (events (JSON.object [("x", JSON.null)]))
          = Callback.returned
              ⟨"At " ++ fullName ++ " : " ++ lib.getSubFieldError "x" ++ "\n",
                [⟨root, assigned⟩], heap, bitSet⟩ 0 := by
        rw [hev, context.new, run_cons lib _ _ Event.start_map _ h1,
          run_cons_abort lib _ _ (Event.map_key "x") _ h2]
        simp
      refine ⟨_, hrun, ?_, rfl, rfl, by simp [parseJSON, hrun]⟩
      intro h
      have := congrArg String.length h
      simp at this
      exact absurd this.1.1.1.1 (by decide)
    | some a =>
      have h2 := map_key_found lib "" ⟨root, assigned⟩ [] heap bitSet offset fullName
        fields "x" a hroot hx
      have hrun : run lib (context.new heap root assigned bitSet)
          (events (JSON.object [("x", JSON.null)]))
          = Callback.returned
              ⟨"NULL value not permitted", [⟨a, assigned⟩, ⟨root, assigned⟩], heap, bitSet⟩
              0 := by
        rw [hev, context.new, run_cons lib _ _ Event.start_map _ h1,
          run_cons lib _ _ (Event.map_key "x") _ h2]
        simp [run, callback, jtree_null, TRY, CATCH]
      refine ⟨_, hrun, ?_, rfl, rfl, by simp [parseJSON, hrun]⟩
      show "NULL value not permitted" ≠ ""
      decide

/-- Witness for C14: `{"x": null}` into the target `heapAB`, which has no field
`x`, and the null literal on the initial context. -/
theorem null_rejected_witness :
    jtree_null (context.new heapAB 0 true ∅)
      = Callback.returned
          { context.new heapAB 0 true ∅ with msg := "NULL value not permitted" } 0 ∧
    ∃ c : context,
      run sampleLib (context.new heapAB 0 true ∅) (events (JSON.object [("x", JSON.null)]))
        = Callback.returned c 0 ∧ c.msg ≠ "" ∧ c.heap = heapAB ∧ c.bitSet = ∅ :=
  ⟨null_rejected.1 _ (by decide),
    let ⟨c, h1, h2, h3, h4, _⟩ :=
      null_rejected.2 sampleLib heapAB 0 true ∅ 0 "" [("a", 1), ("b", 2)] rfl
    ⟨c, h1, h2, h3, h4⟩⟩

/-! ## Creation of fresh values -/

mutual
/-- A fresh value is appended to the heap: the nodes already there stay. -/
theorem createPVField_extends : ∀ (f : Field) (fullName : String) (offset : Nat)
    (heap : List PVField),
    ∃ extra, (createPVField f fullName offset heap).2.1 = heap ++ extra
  | Field.scalar _, _, _, _ => ⟨_, rfl⟩
  | Field.scalarArray _, _, _, _ => ⟨_, rfl⟩
  | Field.structureArray _, _, _, _ => ⟨_, rfl⟩
  | Field.union _ _, _, _, _ => ⟨_, rfl⟩
  | Field.structure fs, fullName, offset, heap => by
    obtain ⟨extra, h⟩ := createPVFields_extends fs fullName (offset + 1) heap
    refine ⟨extra ++ [⟨offset, fullName,
      PVData.structure (createPVFields fs fullName (offset + 1) heap).1⟩], ?_⟩
    simp only [createPVField]
    rw [h, List.append_assoc]
/-- The children of a fresh structure are appended to the heap. -/
theorem createPVFields_extends : ∀ (fs : Fields) (parentName : String) (offset : Nat)
    (heap : List PVField),
    ∃ extra, (createPVFields fs parentName offset heap).2.1 = heap ++ extra
  | Fields.nil, _, _, heap => ⟨[], by simp [createPVFields]⟩
  | Fields.cons name type rest, parentName, offset, heap => by
    obtain ⟨e1, h1⟩ := createPVField_extends type (childName parentName name) offset heap
    obtain ⟨e2, h2⟩ := createPVFields_extends rest parentName
      (createPVField type (childName parentName name) offset heap).2.2
      (createPVField type (childName parentName name) offset heap).2.1
    refine ⟨e1 ++ e2, ?_⟩
    simp only [createPVFields]
    rw [h2, h1, List.append_assoc]
end

/-- An address that holds a node lies inside the heap. -/
theorem addr_lt (heap : List PVField) (a : Nat) (node : PVField)
    (h : heap[a]? = some node) : a < heap.length := by
  by_contra hc
  rw [List.getElem?_eq_none (Nat.le_of_not_lt hc)] at h
  cases h

/-! ## Closing an object -/

/-- C17 (defect of the code): `jtree_start_array` pushes no frame but
`jtree_end_array` pops one, so an array nested in an array unbalances the
cursor stack.  For the well-formed document `[[1]]` and a `long` array as
target, the first four callbacks return 1 and leave the stack empty, and the
fifth (the outer end-array) is entered with an empty stack: the assertion of
`TRY` fails. -/
theorem nested_array_fails_assertion :
    run sampleLib (context.new heapArray 0 true ∅) ((events docNestedArray).take 4)
      = Callback.returned
          ⟨"", [], [⟨0, "", PVData.scalarArray ScalarType.pvLong [AnyScalar.integer 1]⟩],
            {0}⟩ 1 ∧
    (events docNestedArray).drop 4 = [Event.end_array] ∧
    run sampleLib (context.new heapArray 0 true ∅) (events docNestedArray)
      = Callback.assertFailed ∧
    parseJSON sampleLib heapArray 0 true ∅ (events docNestedArray)
      = ParseResult.assertFailed := by
  decide

/-- C19 (defect of the code): through the unbalanced begin-array / end-array
of C17 an inner end-array reaches the frame of the structure array itself.
For the document `{"r": {"sa": [{"b": [[[]]]}]}}` and the target `heapNested`
(`sa` at offset 2), with an empty change set: the first 12 callbacks return 1
and leave the change set empty; the 13th, the third inner end-array of the
element, marks offset 2; and the 15th, the end-array of `sa` itself, returns 1
having marked offset 0, that of the root.  All callbacks from the begin-array
of `sa` (the 5th) to its end-array (the 15th) return 1. -/
theorem element_events_touch_change_set :
    run sampleLib (context.new heapNested 0 true ∅) ((events docDeepNestedArray).take 12)
      = Callback.returned
          ⟨"", [⟨2, true⟩, ⟨1, true⟩, ⟨0, true⟩],
            heapNested ++ [⟨1, "b", PVData.scalarArray ScalarType.pvLong []⟩,
              ⟨2, "c", PVData.scalar ScalarType.pvLong none⟩,
              ⟨0, "", PVData.structure [("b", 3), ("c", 4)]⟩],
            ∅⟩ 1 ∧
    ((events docDeepNestedArray).take 13).drop 12 = [Event.end_array] ∧
    run sampleLib (context.new heapNested 0 true ∅) ((events docDeepNestedArray).take 13)
      = Callback.returned
          ⟨"", [⟨1, true⟩, ⟨0, true⟩],
            heapNested ++ [⟨1, "b", PVData.scalarArray ScalarType.pvLong []⟩,
              ⟨2, "c", PVData.scalar ScalarType.pvLong none⟩,
              ⟨0, "", PVData.structure [("b", 3), ("c", 4)]⟩],
            {2}⟩ 1 ∧
    ((events docDeepNestedArray).take 15).drop 14 = [Event.end_array] ∧
    run sampleLib (context.new heapNested 0 true ∅) ((events docDeepNestedArray).take 15)
      = Callback.returned
          ⟨"", [],
            heapNested ++ [⟨1, "b", PVData.scalarArray ScalarType.pvLong []⟩,
              ⟨2, "c", PVData.scalar ScalarType.pvLong none⟩,
              ⟨0, "", PVData.structure [("b", 3), ("c", 4)]⟩],
            {0, 2}⟩ 1 ∧
    run sampleLib (context.new heapNested 0 true ∅) (events docDeepNestedArray)
      = Callback.assertFailed := by
  decide

/-- C20 (defect of the code): through the unbalanced begin-array / end-array
of C17 the object-key callback can be entered with a structure array on top.
For the document `[{"b": [[]], "c": 1}]` and the structure array
`heapStructureArray` as target, the first seven callbacks return 1 and leave
the frame of the structure array on top of the stack (the second inner
end-array has popped the frame of the element); the eighth event is the key
`"c"`, whose cast of line 200 is then applied to a structure array. -/
theorem key_on_structure_array :
    run sampleLib (context.new heapStructureArray 0 true ∅)
        ((events docElementNestedArray).take 7)
      = Callback.returned
          ⟨"", [⟨0, true⟩],
            heapStructureArray ++ [⟨1, "b", PVData.scalarArray ScalarType.pvLong []⟩,
              ⟨2, "c", PVData.scalar ScalarType.pvLong none⟩,
              ⟨0, "", PVData.structure [("b", 1), ("c", 2)]⟩],
            ∅⟩ 1 ∧
    (heapStructureArray[0]?).map PVField.getType = some Type_.structureArray ∧
    ((events docElementNestedArray).take 8).drop 7 = [Event.map_key "c"] ∧
    run sampleLib (context.new heapStructureArray 0 true ∅)
        ((events docElementNestedArray).take 8)
      = Callback.undefined := by
  decide

/-! ## The selection loop of a selecting union -/

/-- `select(i)` on a scalar alternative: the union ends selected at `i` with a
scalar node of the type of the alternative as active value. -/
theorem select_scalar (heap : List PVField) (u : Nat) (ou : Nat) (nu : String)
    (fields : Fields) (sel : Option Nat) (vl : Option Addr) (i : Nat) (nm : String)
    (t : ScalarType)
    (hu : heap[u]? = some ⟨ou, nu, PVData.union false fields sel vl⟩)
    (halt : fields.toList[i]? = some (nm, Field.scalar t))
    (hcons : sel = some i → ∃ (a : Nat) (off : Nat) (fn : String) (old : Option AnyScalar),
      vl = some a ∧ heap[a]? = some ⟨off, fn, PVData.scalar t old⟩) :
    ∃ (ufld : Nat) (heap1 : List PVField) (off : Nat) (fn : String) (old : Option AnyScalar),
      select heap u i = some (ufld, heap1) ∧
      heap1[ufld]? = some ⟨off, fn, PVData.scalar t old⟩ ∧
      heap1[u]? = some ⟨ou, nu, PVData.union false fields (some i) (some ufld)⟩ ∧
      ufld ≠ u := by
  have hult := addr_lt heap u _ hu
  by_cases hs : sel = some i
  · obtain ⟨a, off, fn, old, hv, ha⟩ := hcons hs
    subst hs hv
    refine ⟨a, heap, off, fn, old, ?_, ha, hu, ?_⟩
    · simp [select, hu]
    · intro h; rw [h, hu] at ha; cases ha
  · refine ⟨heap.length, (heap ++ [(⟨0, nm, PVData.scalar t none⟩ : PVField)]).set u
      ⟨ou, nu, PVData.union false fields (some i) (some heap.length)⟩, 0, nm, none,
      ?_, ?_, ?_, ?_⟩
    · simp [select, hu, hs, halt, createPVField]
    · rw [List.getElem?_set_ne (by omega), List.getElem?_concat_length]
    · rw [List.getElem?_set_self (by rw [List.length_append]; omega)]
    · omega

/-- The loop on a scalar alternative that accepts the literal. -/
theorem selectLoop_accept (lib : Library) (val v : AnyScalar) (u N : Nat) (nm : String)
    (t : ScalarType) (rest : List (String × Field)) (i : Nat) (heap heap1 : List PVField)
    (ufld off : Nat) (fn : String) (old : Option AnyScalar)
    (hsel : select heap u i = some (ufld, heap1))
    (hnode : heap1[ufld]? = some ⟨off, fn, PVData.scalar t old⟩)
    (hput : lib.putFrom t val = Except.ok v) :
    selectLoop lib val u N ((nm, Field.scalar t) :: rest) i heap
      = SelectResult.assigned (heap1.set ufld ⟨off, fn, PVData.scalar t (some v)⟩) := by
  simp [selectLoop, hsel, hnode, hput]

/-- The loop on a scalar alternative that rejects the literal. -/
theorem selectLoop_reject (lib : Library) (val : AnyScalar) (u N : Nat) (nm : String)
    (t : ScalarType) (rest : List (String × Field)) (i : Nat) (heap heap1 : List PVField)
    (ufld off : Nat) (fn : String) (old : Option AnyScalar) (what : String)
    (hsel : select heap u i = some (ufld, heap1))
    (hnode : heap1[ufld]? = some ⟨off, fn, PVData.scalar t old⟩)
    (hput : lib.putFrom t val = Except.error what) :
    selectLoop lib val u N ((nm, Field.scalar t) :: rest) i heap
      = if i = N - 1 then SelectResult.rethrow heap1 what
        else selectLoop lib val u N rest (i + 1) heap1 := by
  simp [selectLoop, hsel, hnode, hput]

/-- The loop on an alternative that is not a scalar. -/
theorem selectLoop_skip (lib : Library) (val : AnyScalar) (u N : Nat) (nm : String)
    (ty : Field) (rest : List (String × Field)) (i : Nat) (heap : List PVField)
    (hty : ∀ t, ty ≠ Field.scalar t) :
    selectLoop lib val u N ((nm, ty) :: rest) i heap
      = selectLoop lib val u N rest (i + 1) heap := by
  cases ty <;> first | exact absurd rfl (hty _) | simp [selectLoop]

/-- The loop selects the first scalar alternative that accepts the literal. -/
theorem selectLoop_first (lib : Library) (val v : AnyScalar) (u : Nat) (ou : Nat)
    (nu : String) (fields : Fields) (nmj : String) (tj : ScalarType)
    (hput : lib.putFrom tj val = Except.ok v) :
    ∀ (j : Nat) (rem : List (String × Field)) (i : Nat) (heap : List PVField)
      (sel : Option Nat) (vl : Option Addr),
      heap[u]? = some ⟨ou, nu, PVData.union false fields sel vl⟩ →
      (∀ k, rem[k]? = fields.toList[i + k]?) →
      (∀ (k : Nat) (nm : String) (t : ScalarType), i ≤ k → sel = some k →
        fields.toList[k]? = some (nm, Field.scalar t) →
        ∃ (a : Nat) (off : Nat) (fn : String) (old : Option AnyScalar),
          vl = some a ∧ heap[a]? = some ⟨off, fn, PVData.scalar t old⟩) →
      rem[j]? = some (nmj, Field.scalar tj) →
      (∀ (k : Nat) (nm : String) (t : ScalarType), k < j →
        rem[k]? = some (nm, Field.scalar t) → ∃ e, lib.putFrom t val = Except.error e) →
      ∃ (heap1 : List PVField) (a : Nat) (off : Nat) (fn : String),
        selectLoop lib val u fields.toList.length rem i heap = SelectResult.assigned heap1 ∧
        heap1[u]? = some ⟨ou, nu, PVData.union false fields (some (i + j)) (some a)⟩ ∧
        heap1[a]? = some ⟨off, fn, PVData.scalar tj (some v)⟩ := by
  intro j
  induction j with
  | zero =>
    intro rem i heap sel vl hu hrem hcons hj _
    cases rem with
    | nil => simp at hj
    | cons hd rest =>
      simp only [List.getElem?_cons_zero, Option.some.injEq] at hj
      subst hj
      have halt : fields.toList[i]? = some (nmj, Field.scalar tj) := by
        have := hrem 0
        simpa using this.symm
      obtain ⟨ufld, heap1, off, fn, old, hsel, hnode, hu1, hne⟩ :=
        select_scalar heap u ou nu fields sel vl i nmj tj hu halt
          (fun hs => hcons i nmj tj (le_refl _) hs halt)
      refine ⟨_, ufld, off, fn,
        selectLoop_accept lib val v u _ nmj tj rest i heap heap1 ufld off fn old hsel hnode hput,
        ?_, ?_⟩
      · rw [List.getElem?_set_ne hne]; exact hu1
      · rw [List.getElem?_set_self (addr_lt heap1 ufld _ hnode)]
  | succ j ih =>
    intro rem i heap sel vl hu hrem hcons hj hrej
    cases rem with
    | nil => simp at hj
    | cons hd rest =>
      obtain ⟨nm0, ty0⟩ := hd
      simp only [List.getElem?_cons_succ] at hj
      have hrem1 : ∀ k, rest[k]? = fields.toList[i + 1 + k]? := by
        intro k
        have := hrem (k + 1)
        simp only [List.getElem?_cons_succ] at this
        rw [this]; congr 1; omega
      have hrej1 : ∀ (k : Nat) (nm : String) (t : ScalarType), k < j →
          rest[k]? = some (nm, Field.scalar t) → ∃ e, lib.putFrom t val = Except.error e := by
        intro k nm t hk hr
        exact hrej (k + 1) nm t (by omega) (by simpa using hr)
      have hlen : i + (j + 1) < fields.toList.length := by
        have h1 : fields.toList[i + (j + 1)]? = some (nmj, Field.scalar tj) := by
          rw [← hrem (j + 1)]; simpa using hj
        by_contra hc
        rw [List.getElem?_eq_none (Nat.le_of_not_lt hc)] at h1
        cases h1
      by_cases hsc : ∃ t0, ty0 = Field.scalar t0
      · obtain ⟨t0, rfl⟩ := hsc
        have halt : fields.toList[i]? = some (nm0, Field.scalar t0) := by
          have := hrem 0
          simpa using this.symm
        obtain ⟨e, he⟩ := hrej 0 nm0 t0 (by omega) (by simp)
        obtain ⟨ufld, heap1, off, fn, old, hsel, hnode, hu1, _⟩ :=
          select_scalar heap u ou nu fields sel vl i nm0 t0 hu halt
            (fun hs => hcons i nm0 t0 (le_refl _) hs halt)
        obtain ⟨heap2, a, off2, fn2, h2, h3, h4⟩ := ih rest (i + 1) heap1 (some i)
          (some ufld) hu1 hrem1
          (by
            intro k nm t hk hs _
            simp only [Option.some.injEq] at hs
            omega)
          hj hrej1
        refine ⟨heap2, a, off2, fn2, ?_, ?_, h4⟩
        · rw [selectLoop_reject lib val u _ nm0 t0 rest i heap heap1 ufld off fn old e
            hsel hnode he, if_neg (by omega)]
          exact h2
        · have e : i + 1 + j = i + (j + 1) := by omega
          rw [h3, e]
      · have hty : ∀ t, ty0 ≠ Field.scalar t := fun t h => hsc ⟨t, h⟩
        obtain ⟨heap2, a, off2, fn2, h2, h3, h4⟩ := ih rest (i + 1) heap sel vl hu hrem1
          (by
            intro k nm t hk hs hf
            exact hcons k nm t (by omega) hs hf)
          hj hrej1
        refine ⟨heap2, a, off2, fn2, ?_, ?_, h4⟩
        · rw [selectLoop_skip lib val u _ nm0 ty0 rest i heap hty]
          exact h2
        · have e : i + 1 + j = i + (j + 1) := by omega
          rw [h3, e]

theorem lastError_cons (lib : Library) (val : AnyScalar) (hd x : String × Field)
    (xs : List (String × Field)) :
    lastError lib val (hd :: x :: xs) = lastError lib val (x :: xs) := by
  simp [lastError, List.getLast?_cons_cons]

/-- The loop when every scalar alternative rejects the literal. -/
theorem selectLoop_all_reject (lib : Library) (val : AnyScalar) (u : Nat) (ou : Nat)
    (nu : String) (fields : Fields) :
    ∀ (rem : List (String × Field)) (i : Nat) (heap : List PVField)
      (sel : Option Nat) (vl : Option Addr),
      heap[u]? = some ⟨ou, nu, PVData.union false fields sel vl⟩ →
      (∀ k, rem[k]? = fields.toList[i + k]?) →
      i + rem.length = fields.toList.length →
      (∀ (k : Nat) (nm : String) (t : ScalarType), i ≤ k → sel = some k →
        fields.toList[k]? = some (nm, Field.scalar t) →
        ∃ (a : Nat) (off : Nat) (fn : String) (old : Option AnyScalar),
          vl = some a ∧ heap[a]? = some ⟨off, fn, PVData.scalar t old⟩) →
      (∀ (k : Nat) (nm : String) (t : ScalarType),
        rem[k]? = some (nm, Field.scalar t) → ∃ e, lib.putFrom t val = Except.error e) →
      ∃ heap1 : List PVField,
        selectLoop lib val u fields.toList.length rem i heap
          = match lastError lib val rem with
            | some what => SelectResult.rethrow heap1 what
            | none => SelectResult.notAssigned heap1 := by
  intro rem
  induction rem with
  | nil =>
    intro i heap sel vl _ _ _ _ _
    exact ⟨heap, by simp [selectLoop, lastError]⟩
  | cons hd rest ih =>
    intro i heap sel vl hu hrem hlen hcons hrej
    obtain ⟨nm0, ty0⟩ := hd
    have hrem1 : ∀ k, rest[k]? = fields.toList[i + 1 + k]? := by
      intro k
      have := hrem (k + 1)
      simp only [List.getElem?_cons_succ] at this
      rw [this]; congr 1; omega
    have hrej1 : ∀ (k : Nat) (nm : String) (t : ScalarType),
        rest[k]? = some (nm, Field.scalar t) → ∃ e, lib.putFrom t val = Except.error e := by
      intro k nm t hr
      exact hrej (k + 1) nm t (by simpa using hr)
    have hlen1 : i + 1 + rest.length = fields.toList.length := by
      simp only [List.length_cons] at hlen; omega
    by_cases hsc : ∃ t0, ty0 = Field.scalar t0
    · obtain ⟨t0, rfl⟩ := hsc
      have halt : fields.toList[i]? = some (nm0, Field.scalar t0) := by
        have := hrem 0
        simpa using this.symm
      obtain ⟨e, he⟩ := hrej 0 nm0 t0 (by simp)
      obtain ⟨ufld, heap1, off, fn, old, hsel, hnode, hu1, _⟩ :=
        select_scalar heap u ou nu fields sel vl i nm0 t0 hu halt
          (fun hs => hcons i nm0 t0 (le_refl _) hs halt)
      rw [selectLoop_reject lib val u _ nm0 t0 rest i heap heap1 ufld off fn old e
        hsel hnode he]
      cases rest with
      | nil =>
        refine ⟨heap1, ?_⟩
        have hi : i = fields.toList.length - 1 := by
          simp only [List.length_nil] at hlen1; omega
        rw [if_pos hi]
        simp [lastError, he]
      | cons x xs =>
        have hi : ¬ i = fields.toList.length - 1 := by
          simp only [List.length_cons] at hlen1; omega
        rw [if_neg hi, lastError_cons]
        exact ih (i + 1) heap1 (some i) (some ufld) hu1 hrem1 hlen1
          (by
            intro k nm t hk hs _
            simp only [Option.some.injEq] at hs
            omega)
          hrej1
    · have hty : ∀ t, ty0 ≠ Field.scalar t := fun t h => hsc ⟨t, h⟩
      rw [selectLoop_skip lib val u _ nm0 ty0 rest i heap hty]
      cases rest with
      | nil =>
        refine ⟨heap, ?_⟩
        cases ty0 <;> first | exact absurd rfl (hty _) | simp [selectLoop, lastError]
      | cons x xs =>
        rw [lastError_cons]
        exact ih (i + 1) heap sel vl hu hrem1 hlen1
          (by
            intro k nm t hk hs hf
            exact hcons k nm t (by omega) hs hf)
          hrej1

/-- C15: when a scalar literal arrives while the top frame is a selecting union
whose active value fits its selected index, and `j` is the smallest index of a
declared scalar alternative that accepts the literal, the callback returns 1,
the union is selected at `j`, its active value is a scalar of the type of
alternative `j` that holds the coerced literal, the offset of the union is
marked in the change set when the frame has one, and exactly one frame is
popped. -/
theorem union_selects_first_accepting (lib : Library) (msg : String) (back : frame)
    (rest : List frame) (heap : List PVField) (bitSet : Finset Nat) (ou : Nat) (nu : String)
    (fields : Fields) (sel : Option Nat) (vl : Option Addr) (val v : AnyScalar) (j : Nat)
    (nmj : String) (tj : ScalarType)
    (hu : heap[back.fld]? = some ⟨ou, nu, PVData.union false fields sel vl⟩)
    (hok : UnionValueOK heap fields sel vl)
    (hj : fields.toList[j]? = some (nmj, Field.scalar tj))
    (hput : lib.putFrom tj val = Except.ok v)
    (hfirst : ∀ (k : Nat) (nm : String) (t : ScalarType), k < j →
      fields.toList[k]? = some (nm, Field.scalar t) →
      ∃ e, lib.putFrom t val = Except.error e) :
    ∃ (heap1 : List PVField) (a : Nat) (off : Nat) (fn : String),
      jtree_value lib ⟨msg, back :: rest, heap, bitSet⟩ val
        = Callback.returned ⟨msg, rest, heap1, mark back.assigned ou bitSet⟩ 1 ∧
      heap1[back.fld]? = some ⟨ou, nu, PVData.union false fields (some j) (some a)⟩ ∧
      heap1[a]? = some ⟨off, fn, PVData.scalar tj (some v)⟩ := by
  obtain ⟨heap1, a, off, fn, hloop, h1, h2⟩ :=
    selectLoop_first lib val v back.fld ou nu fields nmj tj hput j fields.toList 0 heap
      sel vl hu (by intro k; simp)
      (by intro k nm t _ hs hf; exact hok k nm t hs hf)
      hj hfirst
  refine ⟨heap1, a, off, fn, ?_, ?_, h2⟩
  · simp [jtree_value, valueAssign, TRY, CATCH, hu, hloop]
  · simpa using h1

/-- Witness for C15: a selecting union with the alternatives
`{intVal: int, strVal: text}`: the literal "hello" selects `strVal` (index 1),
the literal 42 selects `intVal` (index 0). -/
theorem union_selects_first_accepting_witness :
    (∃ (heap1 : List PVField) (a : Nat) (off : Nat) (fn : String),
      jtree_value sampleLib ⟨"", [⟨0, true⟩], heapUnion, ∅⟩ (AnyScalar.string "hello")
        = Callback.returned ⟨"", [], heap1, mark true 0 ∅⟩ 1 ∧
      heap1[0]? = some ⟨0, "", PVData.union false intOrText (some 1) (some a)⟩ ∧
      heap1[a]? = some ⟨off, fn,
        PVData.scalar ScalarType.pvString (some (AnyScalar.string "hello"))⟩) ∧
    (∃ (heap1 : List PVField) (a : Nat) (off : Nat) (fn : String),
      jtree_value sampleLib ⟨"", [⟨0, true⟩], heapUnion, ∅⟩ (AnyScalar.integer 42)
        = Callback.returned ⟨"", [], heap1, mark true 0 ∅⟩ 1 ∧
      heap1[0]? = some ⟨0, "", PVData.union false intOrText (some 0) (some a)⟩ ∧
      heap1[a]? = some ⟨off, fn,
        PVData.scalar ScalarType.pvInt (some (AnyScalar.integer 42))⟩) := by
  have hok : UnionValueOK heapUnion intOrText none none := by
    intro i name t hs; cases hs
  refine ⟨union_selects_first_accepting sampleLib "" ⟨0, true⟩ [] heapUnion ∅ 0 ""
      intOrText none none (AnyScalar.string "hello") (AnyScalar.string "hello") 1 "strVal"
      ScalarType.pvString rfl hok rfl rfl ?_,
    union_selects_first_accepting sampleLib "" ⟨0, true⟩ [] heapUnion ∅ 0 ""
      intOrText none none (AnyScalar.integer 42) (AnyScalar.integer 42) 0 "intVal"
      ScalarType.pvInt rfl hok rfl rfl ?_⟩
  · intro k nm t hk hf
    obtain rfl : k = 0 := by omega
    simp only [intOrText, Fields.toList, List.getElem?_cons_zero, Option.some.injEq,
      Prod.mk.injEq, Field.scalar.injEq] at hf
    obtain ⟨_, rfl⟩ := hf
    exact ⟨_, rfl⟩
  · intro k nm t hk _
    omega

/-- C16 as stated fails: a selecting union with the alternatives
`{a: long, b: long[]}` and the literal "hello".  The only alternative that is
attempted, `a`, rejects the literal with "not a number", but it is not the
last declared alternative, so its error is swallowed and the message is the
generic "Unable to select union member". -/
theorem union_generic_message_counterexample :
    sampleLib.putFrom ScalarType.pvLong (AnyScalar.string "hello")
      = Except.error "not a number" ∧
    jtree_string sampleLib (context.new heapUnionArray 0 true ∅) "hello"
      = Callback.returned
          ⟨"Unable to select union member", [⟨0, true⟩],
            [⟨0, "", PVData.union false longOrArray (some 0) (some 1)⟩,
              ⟨0, "a", PVData.scalar ScalarType.pvLong none⟩],
            ∅⟩ 0 := by
  refine ⟨rfl, by decide⟩

/-- C16, amended: when a scalar literal arrives while the top frame is a
selecting union whose active value fits its selected index and every scalar
alternative rejects the literal, the callback returns 0 without popping a
frame or touching the change set, and the error message (unless one was
recorded before, which is kept) is the error raised by the last attempted
alternative when that alternative is the last declared one, and the generic
"Unable to select union member" otherwise. -/
theorem union_all_rejected (lib : Library) (msg : String) (back : frame)
    (rest : List frame)
    (heap : List PVField) (bitSet : Finset Nat) (ou : Nat) (nu : String)
    (fields : Fields) (sel : Option Nat) (vl : Option Addr) (val : AnyScalar)
    (hu : heap[back.fld]? = some ⟨ou, nu, PVData.union false fields sel vl⟩)
    (hok : UnionValueOK heap fields sel vl)
    (hrej : ∀ (k : Nat) (nm : String) (t : ScalarType),
      fields.toList[k]? = some (nm, Field.scalar t) →
      ∃ e, lib.putFrom t val = Except.error e) :
    ∃ heap1 : List PVField,
      jtree_value lib ⟨msg, back :: rest, heap, bitSet⟩ val
        = Callback.returned
            ⟨if msg = "" then
                (lastError lib val fields.toList).getD "Unable to select union member"
              else msg,
              back :: rest, heap1, bitSet⟩ 0 := by
  obtain ⟨heap1, hloop⟩ :=
    selectLoop_all_reject lib val back.fld ou nu fields fields.toList 0 heap sel vl hu
      (by intro k; simp) (by simp)
      (by intro k nm t _ hs hf; exact hok k nm t hs hf)
      hrej
  refine ⟨heap1, ?_⟩
  cases hl : lastError lib val fields.toList with
  | none =>
    rw [hl] at hloop
    by_cases hm : msg = "" <;> simp [jtree_value, valueAssign, TRY, CATCH, hu, hloop, hm]
  | some what =>
    rw [hl] at hloop
    by_cases hm : msg = "" <;> simp [jtree_value, valueAssign, TRY, CATCH, hu, hloop, hm]

/-- Witness for C16: the union `{intVal: int, strVal: text}` and the boolean
literal `true`: both alternatives reject it, and the message is the error of
the last one, `strVal`. -/
theorem union_all_rejected_witness :
    ∃ heap1 : List PVField,
      jtree_value sampleLib ⟨"", [⟨0, true⟩], heapUnion, ∅⟩ (AnyScalar.boolean true)
        = Callback.returned ⟨"not a text", [⟨0, true⟩], heap1, ∅⟩ 0 := by
  have hok : UnionValueOK heapUnion intOrText none none := by
    intro i name t hs; cases hs
  have h := union_all_rejected sampleLib "" ⟨0, true⟩ [] heapUnion ∅ 0 "" intOrText none none
    (AnyScalar.boolean true) rfl hok (by
      intro k nm t hf
      match k, hf with
      | 0, hf =>
        simp only [intOrText, Fields.toList, List.getElem?_cons_zero, Option.some.injEq,
          Prod.mk.injEq, Field.scalar.injEq] at hf
        obtain ⟨_, rfl⟩ := hf
        exact ⟨_, rfl⟩
      | 1, hf =>
        simp only [intOrText, Fields.toList, List.getElem?_cons_succ,
          List.getElem?_cons_zero, Option.some.injEq, Prod.mk.injEq,
          Field.scalar.injEq] at hf
        obtain ⟨_, rfl⟩ := hf
        exact ⟨_, rfl⟩
      | k + 2, hf =>
        simp [intOrText, Fields.toList] at hf)
  exact h

end epics.pvData
